import Mathlib

/-!
Verification of the dbgap-extract pipeline (`dbgap_extract.py`).

The Python source is shallowly embedded as follows:

* Python `str` is Lean `String`; string primitives used by the source
  (`str.split`, `str.join`, slicing, `int()`, `str()` on integers,
  `str.replace` for the one pattern the source uses) are modelled by
  executable Lean functions over `String.data`.
* Python `dict` (insertion-ordered, string keys) is an association list
  `List (String × String)`; assignment `d[k] = v` is `pyDictSet`
  (overwrite in place, else append), lookup `d[k]` / `d.get(k)` is
  `pyDictGet` (first match), `k in d` is `pyDictMem`.
* A raised exception is modelled as `none` in an `Option` result.
* A parsed XML `Sample` element is the structure `XmlSample`: its
  attribute dictionary, the text of the `Use` children of its first
  `Uses` child, and the attribute dictionaries of the `Stats` children
  of its first `SRAData` child.
* `json.dumps` (default options: `ensure_ascii=True`, separators
  `", "` / `": "`) is modelled for the two shapes the source passes it:
  a dict of strings and a list of strings.
* The network is an injected function `String → Option StudyDoc`:
  `none` models a fetch/parse failure (which the source makes fatal),
  `some doc` a response that parses to resolved accession `doc.accession`
  and sample list `doc.samples`.  The driver loop `scrape` is embedded
  as the fuel-indexed `scrapeLoop`; `none` means the fuel ran out,
  `some .crash` an uncaught exception / fatal exit, `some (.ok _)`
  normal completion.
-/

/-! ### Python string splitting and joining -/

/-- Model of Python `s.split(".")` at the character-list level:
split on every `'.'`, keeping empty segments. -/
def splitDotChars : List Char → List (List Char)
  | [] => [[]]
  | c :: cs =>
    if c = '.' then [] :: splitDotChars cs
    else
      match splitDotChars cs with
      | [] => [[c]]
      | s :: ss => (c :: s) :: ss

/-- Model of Python `sep.join(parts)` at the character-list level. -/
def joinSepChars (sep : List Char) : List (List Char) → List Char
  | [] => []
  | [x] => x
  | x :: y :: ys => x ++ sep ++ joinSepChars sep (y :: ys)

/-- Python `s.split(".")`. -/
def pySplit (s : String) : List String :=
  (splitDotChars s.data).map (fun l => ⟨l⟩)

/-- Python `".".join(parts)`. -/
def joinDot (parts : List String) : String :=
  ⟨joinSepChars ['.'] (parts.map String.data)⟩

/-! ### Python `int()` and `str()` on integers

`int()` on a `str` strips surrounding whitespace, accepts one optional
leading `'+'` or `'-'` sign, and then decimal digits among which a
single `'_'` may stand between two digits; anything else raises
`ValueError`.  All of that is modelled below.  (CPython additionally
accepts non-ASCII decimal-digit characters; accession strings are
ASCII, and those code points are not modelled.) -/

/-- `'0' ≤ c ≤ '9'`, the ASCII digits `int()` accepts. -/
def isDigitCh (c : Char) : Bool :=
  decide (48 ≤ c.toNat ∧ c.toNat ≤ 57)

/-- The whitespace characters `int()` strips from a `str` argument:
ASCII whitespace, `\x1c`–`\x1f`, NEL, NBSP and the Unicode space
separators. -/
def pyIsSpace (c : Char) : Bool :=
  decide ((9 ≤ c.toNat ∧ c.toNat ≤ 13) ∨ (28 ≤ c.toNat ∧ c.toNat ≤ 31) ∨
    c.toNat = 32 ∨ c.toNat = 133 ∨ c.toNat = 160 ∨ c.toNat = 5760 ∨
    (8192 ≤ c.toNat ∧ c.toNat ≤ 8202) ∨ c.toNat = 8232 ∨ c.toNat = 8233 ∨
    c.toNat = 8239 ∨ c.toNat = 8287 ∨ c.toNat = 12288)

/-- Strip leading and trailing `int()` whitespace. -/
def pyStripWs (l : List Char) : List Char :=
  ((l.dropWhile pyIsSpace).reverse.dropWhile pyIsSpace).reverse

/-- Plain decimal accumulator: consume digits left to right, failing on
the first non-digit.  (The underscore-free core; the proofs relate
`pyIntUSGo` to it on all-digit strings.) -/
def pyIntNatGo : List Char → Nat → Option Nat
  | [], acc => some acc
  | c :: cs, acc =>
    if isDigitCh c then pyIntNatGo cs (acc * 10 + (c.toNat - 48)) else none

/-- Digit accumulator of `int()` after the first digit: further digits,
with a single `'_'` allowed only between two digits. -/
def pyIntUSGo : List Char → Nat → Option Nat
  | [], acc => some acc
  | c :: cs, acc =>
    if isDigitCh c then pyIntUSGo cs (acc * 10 + (c.toNat - 48))
    else if c = '_' then
      match cs with
      | [] => none
      | c' :: cs' =>
        if isDigitCh c' then pyIntUSGo cs' (acc * 10 + (c'.toNat - 48))
        else none
    else none

/-- `int()` on the unsigned part (sign and surrounding whitespace
already removed): it must start with a digit, so the empty string, a
leading `'_'` and a repeated sign all raise. -/
def pyIntNat (l : List Char) : Option Nat :=
  match l with
  | [] => none
  | c :: cs => if isDigitCh c then pyIntUSGo cs (c.toNat - 48) else none

/-- Python `int(s)` (`none` = `ValueError`). -/
def pyInt (s : String) : Option Int :=
  match pyStripWs s.data with
  | [] => none
  | c :: cs =>
    if c = '-' then (pyIntNat cs).map (fun n => -(n : Int))
    else if c = '+' then (pyIntNat cs).map (fun n => (n : Int))
    else (pyIntNat (c :: cs)).map (fun n => (n : Int))

/-- The decimal digit character for `n < 10` (code point `48 + n`). -/
def digitCh (n : Nat) : Char :=
  Char.ofNat (48 + n)

/-- Fuel-indexed decimal printer (the fuel only bounds the recursion;
`fuel = n + 1` always suffices). -/
def natToCharsAux : Nat → Nat → List Char
  | 0, _ => []
  | fuel + 1, n =>
    if n < 10 then [digitCh n]
    else natToCharsAux fuel (n / 10) ++ [digitCh (n % 10)]

/-- Python `str(n)` for a nonnegative integer. -/
def pyStrNat (n : Nat) : String :=
  ⟨natToCharsAux (n + 1) n⟩

/-- Python `str(i)` for an integer. -/
def pyStrInt (i : Int) : String :=
  if i < 0 then "-" ++ pyStrNat (-i).toNat else pyStrNat i.toNat

/-! ### `_get_previous_version_of_study_accession` (source lines 137-159)

The source splits on `"."`, reads `int(parts[1][1:])`, returns `None`
when the version is 1, and otherwise rejoins `parts[0]`,
`"v" + str(version - 1)` and `parts[2]`.  The outer `Option` models the
uncaught exceptions of the source (`IndexError` when fewer than two,
resp. three, segments exist, `ValueError` from `int`); the inner
`Option` is the source's `None` ("no fallback"). -/
def _get_previous_version_of_study_accession (study_accession : String) :
    Option (Option String) :=
  match pySplit study_accession with
  | p0 :: p1 :: rest =>
    match pyInt ⟨p1.data.drop 1⟩ with
    | none => none
    | some version_number =>
      if version_number = 1 then some none
      else
        match rest with
        | [] => none
        | p2 :: _ =>
          some (some (joinDot [p0, "v" ++ pyStrInt (version_number - 1), p2]))
  | _ => none

/-! ### Python dicts (insertion-ordered association lists) -/

/-- Python `k in d`. -/
def pyDictMem (d : List (String × String)) (k : String) : Bool :=
  d.any (fun p => p.1 == k)

/-- Python `d.get(k)` / `d[k]` (first matching key; a dict holds each
key once). -/
def pyDictGet (d : List (String × String)) (k : String) : Option String :=
  (d.find? (fun p => p.1 == k)).map (fun p => p.2)

/-- Python `d[k] = v`: overwrite the value in place when the key is
present, otherwise append the new binding at the end. -/
def pyDictSet (d : List (String × String)) (k v : String) :
    List (String × String) :=
  if pyDictMem d k then d.map (fun p => if p.1 == k then (k, v) else p)
  else d ++ [(k, v)]

/-! ### `json.dumps` (default options) for string dicts and lists -/

/-- Lowercase hexadecimal digit for `n < 16`, as CPython's `\uXXXX`
escapes use: `0`-`9` then `a`-`f`. -/
def hexDigitCh (n : Nat) : Char :=
  if n < 10 then Char.ofNat (48 + n) else Char.ofNat (87 + n)

/-- Four lowercase hex digits of `n < 0x10000`. -/
def hex4 (n : Nat) : List Char :=
  [hexDigitCh (n / 4096 % 16), hexDigitCh (n / 256 % 16),
   hexDigitCh (n / 16 % 16), hexDigitCh (n % 16)]

/-- CPython's `ensure_ascii` string-character escaping: `\"`, `\\`, the
short control escapes, `\uXXXX` for other controls and for `0x7f`, and
`\uXXXX` (with surrogate pairs above `0xffff`) for all non-ASCII. -/
def jsonEscapeChar (c : Char) : List Char :=
  if c = '"' then ['\\', '"']
  else if c = '\\' then ['\\', '\\']
  else if c = '\n' then ['\\', 'n']
  else if c = '\t' then ['\\', 't']
  else if c = '\r' then ['\\', 'r']
  else if c = '\x08' then ['\\', 'b']
  else if c = '\x0c' then ['\\', 'f']
  else if c.toNat < 32 then '\\' :: 'u' :: hex4 c.toNat
  else if c.toNat ≤ 126 then [c]
  else if c.toNat < 65536 then '\\' :: 'u' :: hex4 c.toNat
  else
    ('\\' :: 'u' :: hex4 (55296 + (c.toNat - 65536) / 1024)) ++
    ('\\' :: 'u' :: hex4 (56320 + (c.toNat - 65536) % 1024))

/-- JSON escaping of a whole string body. -/
def jsonEscape (l : List Char) : List Char :=
  (l.map jsonEscapeChar).flatten

/-- One `"key": "value"` entry of a dumped dict. -/
def jsonEntryChars (kv : String × String) : List Char :=
  '"' :: jsonEscape kv.1.data ++
  '"' :: ':' :: ' ' :: '"' :: jsonEscape kv.2.data ++ ['"']

/-- `json.dumps` of a dict of strings (insertion order, separators
`", "` and `": "`). -/
def jsonDumpsDict (d : List (String × String)) : String :=
  ⟨ '\x7b' :: joinSepChars [',', ' '] (d.map jsonEntryChars) ++ ['\x7d'] ⟩

/-- `json.dumps` of a list of strings. -/
def jsonDumpsList (l : List String) : String :=
  ⟨ '[' ::
    joinSepChars [',', ' ']
      (l.map (fun s => '"' :: jsonEscape s.data ++ ['"'])) ++
    [']'] ⟩

/-- Python `s.replace('\x7b\x7d', ...)` specialised to the one call the
source makes: `replace('""', '"')`, scanning left to right. -/
def replaceQQ : List Char → List Char
  | [] => []
  | [c] => [c]
  | a :: b :: rest =>
    if a = '"' ∧ b = '"' then '"' :: replaceQQ rest
    else a :: replaceQQ (b :: rest)

/-- Python `s.replace('""', '"')`. -/
def pyReplaceQQ (s : String) : String :=
  ⟨replaceQQ s.data⟩

/-! ### Parsed sample elements -/

/-- A parsed XML `Sample` element, as the source reads it: its attribute
dictionary `attrib`, the text of the `Use` children of its first `Uses`
child, and the attribute dictionaries of the `Stats` children of its
first `SRAData` child.  (Per the spec's shape assumptions a sample has
`Uses` and `SRAData` children; their absence is a parse-shape failure
outside the scope of these claims.) -/
structure XmlSample where
  attrib : List (String × String)
  uses : List String
  sraStats : List (List (String × String))
deriving DecidableEq, Repr

/-- The fixed output column order (source lines 17-37). -/
def FIELD_NAMES : List String :=
  ["submitted_sample_id", "biosample_id", "dbgap_sample_id",
   "sra_sample_id", "submitted_subject_id", "dbgap_subject_id",
   "consent_code", "consent_short_name", "sex", "body_site",
   "analyte_type", "sample_use", "repository", "dbgap_status",
   "sra_data_details", "study_accession", "study_accession_with_consent",
   "study_with_consent", "study_subject_id"]

/-- Modelled from the spec (§3, SampleRecord): the attribute names the
source documents put on a sample element.  Used as a hypothesis where a
claim needs that a sample's own attributes do not collide with the
derived output fields. -/
def sourceAttributeNames : List String :=
  ["submitted_sample_id", "biosample_id", "dbgap_sample_id",
   "sra_sample_id", "submitted_subject_id", "dbgap_subject_id",
   "consent_code", "consent_short_name", "sex", "body_site",
   "analyte_type", "repository", "dbgap_status"]

/-! ### `_get_flattened_sra_data_details_from_xml_sample` (lines 162-184) -/

/-- The tail of one loop iteration: Python's
`stats_as_string[-1]` / `stats_as_string[:-1]` — read the last character
(`IndexError`, i.e. `none`, on the empty string), strip it when it is
`'|'`, wrap in parentheses and append with a trailing space. -/
def pyStripLastBarWrap (acc stats_as_string : String) : Option String :=
  match stats_as_string.data.getLast? with
  | none => none
  | some c =>
    some (acc ++ "(" ++
      (if c = '|' then (⟨stats_as_string.data.dropLast⟩ : String)
       else stats_as_string) ++ ") ")

/-- One iteration of the source's outer loop: render one `Stats` block's
attribute dict as `key:value|...`, strip the trailing `'|'` (indexing
`stats_as_string[-1]` raises `IndexError` — `none` — when the block has
no attributes), wrap in parentheses and append, with a trailing space. -/
def flattenOneStatBlock (acc : String) (stat_dict : List (String × String)) :
    Option String :=
  pyStripLastBarWrap acc
    (stat_dict.foldl (fun s kv => s ++ kv.1 ++ ":" ++ kv.2 ++ "|") "")

/-- Source's flattened SRA rendering: fold the blocks (the source's
`if len(sra_datas) > 0` guard is a no-op for the empty list), starting
from the empty string; `none` models the uncaught `IndexError`. -/
def _get_flattened_sra_data_details_from_xml_sample
    (sraStats : List (List (String × String))) : Option String :=
  sraStats.foldlM flattenOneStatBlock ""

/-! ### `_get_sra_data_details_from_xml_sample` (lines 187-204) -/

/-- `dict.update`: merge all blocks' pairs into one dict, later pairs
overwriting earlier values at their key. -/
def mergeStats (sraStats : List (List (String × String))) :
    List (String × String) :=
  sraStats.foldl
    (fun acc stat_dict =>
      stat_dict.foldl (fun a kv => pyDictSet a kv.1 kv.2) acc)
    []

/-- Source's expanded SRA rendering: merge the blocks, `json.dumps` the
merged dict, then `replace('""', '"')`. -/
def _get_sra_data_details_from_xml_sample
    (sraStats : List (List (String × String))) : String :=
  pyReplaceQQ (jsonDumpsDict (mergeStats sraStats))

/-! ### `get_sample_dict_from_xml_sample` (lines 207-253)

In the source `sample_dict = sample.attrib` makes `sample_dict` an
alias of the element's attribute dictionary, so every store below is
also a store into the sample element; `flattenPostSample` below exposes
that post-state.  `none` models the uncaught exceptions: the
`IndexError` from the flattened SRA rendering and the `KeyError` from
`sample_dict["submitted_subject_id"]`. -/
/-- The state of `sample_dict` after source line 232: the element's
attributes, then `sample_use` (the JSON-encoded `Use` texts, line 221),
`sra_data_details` (line 226/228) and `study_accession` (line 232)
assigned in that order. -/
def sampleDictD3 (sample : XmlSample) (study_accession sra : String) :
    List (String × String) :=
  pyDictSet
    (pyDictSet
      (pyDictSet sample.attrib "sample_use" (jsonDumpsList sample.uses))
      "sra_data_details" sra)
    "study_accession" study_accession

/-- The state of `sample_dict` after the consent block (lines 233-248):
when `consent_code` is a key, `study_accession_with_consent` and
`study_with_consent` are assigned (both built with
`sample_dict.get("consent_code", "")` and, for the latter,
`".".join(study_accession.split(".")[:-2])`); otherwise unchanged. -/
def sampleDictD4 (sample : XmlSample) (study_accession sra : String) :
    List (String × String) :=
  if pyDictMem (sampleDictD3 sample study_accession sra) "consent_code" then
    pyDictSet
      (pyDictSet (sampleDictD3 sample study_accession sra)
        "study_accession_with_consent"
        (study_accession ++ ".c" ++
          (pyDictGet (sampleDictD3 sample study_accession sra)
              "consent_code").getD ""))
      "study_with_consent"
      (joinDot ((pySplit study_accession).take
          ((pySplit study_accession).length - 2)) ++
        ".c" ++
        (pyDictGet (sampleDictD3 sample study_accession sra)
            "consent_code").getD "")
  else sampleDictD3 sample study_accession sra

def get_sample_dict_from_xml_sample (study_accession : String)
    (sample : XmlSample) (expand_sra_details : Bool) :
    Option (List (String × String)) :=
  match
    (if expand_sra_details then
      some (_get_sra_data_details_from_xml_sample sample.sraStats)
    else
      _get_flattened_sra_data_details_from_xml_sample sample.sraStats) with
  | none => none
  | some sra =>
    match pyDictGet (sampleDictD4 sample study_accession sra)
        "study_accession" with
    | none => none
    | some acc_in_dict =>
      match pyDictGet (sampleDictD4 sample study_accession sra)
          "submitted_subject_id" with
      | none => none
      | some ssid =>
        some (pyDictSet (sampleDictD4 sample study_accession sra)
          "study_subject_id"
          (joinDot ((pySplit acc_in_dict).dropLast) ++ "_" ++ ssid))

/-- The state of the sample element after `get_sample_dict_from_xml_sample`:
because `sample_dict` aliases `sample.attrib`, the element's attribute
dictionary afterwards is exactly the returned dict; the nested `Uses` and
`SRAData` structures are untouched. -/
def flattenPostSample (study_accession : String) (sample : XmlSample)
    (expand_sra_details : Bool) : Option XmlSample :=
  (get_sample_dict_from_xml_sample study_accession sample
      expand_sra_details).map
    (fun d => { sample with attrib := d })

/-! ### `write_sample_rows_for_study` (lines 256-284) -/

/-- The row the source builds for one sample: every output field's
value, the empty string when absent (`sample_dict.get(field, "")`);
`none` when `get_sample_dict_from_xml_sample` raised (the source's
`except` branch: the sample is logged and skipped). -/
def row_for_sample (study_accession : String) (sample : XmlSample)
    (expand_sra_details : Bool) : Option (List String) :=
  (get_sample_dict_from_xml_sample study_accession sample
      expand_sra_details).map
    (fun d => FIELD_NAMES.map (fun f => (pyDictGet d f).getD ""))

/-- The list of rows the source appends to the output file for one
study: one row per sample whose flattening succeeded, in sample order. -/
def write_sample_rows_for_study (study_accession : String)
    (samples : List XmlSample) (expand_sra_details : Bool) :
    List (List String) :=
  samples.foldl
    (fun rows sample =>
      match row_for_sample study_accession sample expand_sra_details with
      | some row => rows ++ [row]
      | none => rows)
    []

/-! ### `scrape` (lines 287-344) -/

/-- A fetched-and-parsed study document: the resolved accession (the
`accession` attribute of the `Study` element, authoritative over the
requested one) and its `Sample` elements. -/
structure StudyDoc where
  accession : String
  samples : List XmlSample
deriving DecidableEq, Repr

/-- Result of a `scrape` run: `crash` models a fatal fetch/parse failure
(`exit(1)`) or an uncaught exception from the fallback resolver; `ok`
carries the seen list (resolved accessions written, in write order) and
the per-study row batches written to the output file. -/
inductive ScrapeOut where
  | crash
  | ok (seen : List String) (out : List (String × List (List String)))
deriving DecidableEq, Repr

/-- The driver's worklist loop, fuel-indexed (`none` = fuel exhausted,
never a behaviour of the source).  FIFO queue at the list head, pushes
at the tail; a dequeued accession is fetched, re-bound to the document's
resolved accession, and then: zero samples → consult the fallback
resolver and push its answer if any; already seen → write nothing;
otherwise write the study's rows and append the accession to the seen
list. -/
def scrapeLoop (fetch : String → Option StudyDoc) (expand : Bool) :
    Nat → List String → List String → List (String × List (List String)) →
    Option ScrapeOut
  | 0, _, _, _ => none
  | _ + 1, [], seen, out => some (.ok seen out)
  | fuel + 1, a :: rest, seen, out =>
    match fetch a with
    | none => some .crash
    | some doc =>
      if doc.samples.isEmpty then
        match _get_previous_version_of_study_accession doc.accession with
        | none => some .crash
        | some none => scrapeLoop fetch expand fuel rest seen out
        | some (some prev) =>
          scrapeLoop fetch expand fuel (rest ++ [prev]) seen out
      else if seen.contains doc.accession then
        scrapeLoop fetch expand fuel rest seen out
      else
        scrapeLoop fetch expand fuel rest (seen ++ [doc.accession])
          (out ++ [(doc.accession,
            write_sample_rows_for_study doc.accession doc.samples expand)])

/-- The driver's loop finishes on the given worklist (some amount of
fuel reaches a result — normal completion or a fatal error — rather
than looping forever). -/
def scrapeTerminates (fetch : String → Option StudyDoc) (expand : Bool)
    (worklist : List String) : Prop :=
  ∃ fuel r, scrapeLoop fetch expand fuel worklist [] [] = some r

/-- The version number the fallback resolver parses out of an accession
(`int(parts[1][1:])`), when that parse succeeds. -/
def parsedVersion (a : String) : Option Int :=
  match pySplit a with
  | _ :: p1 :: _ => pyInt ⟨p1.data.drop 1⟩
  | _ => none

/-! ### Spec-side renderings (for the refinement claims)

These two definitions follow the spec's words (§4.2), not the source;
the claims compare the source functions against them. -/

/-- Modelled from the spec: one statistic block renders as
`key:value|key:value|...` joined with `|`, wrapped in parentheses, with
a single trailing space after the closing parenthesis. -/
def specRenderStatBlock (b : List (String × String)) : String :=
  "(" ++ (⟨joinSepChars ['|'] (b.map (fun kv => (kv.1 ++ ":" ++ kv.2).data))⟩ : String) ++ ") "

/-- Modelled from the spec: the flattened `sra_data_details` value is
the blocks' renderings in order (empty block list → empty string). -/
def specFlattenedSraDetails (blocks : List (List (String × String))) : String :=
  ⟨(blocks.map (fun b => (specRenderStatBlock b).data)).flatten⟩

/-- Modelled from the spec: the value the merged mapping should give a
key — the value of the key's last occurrence across all blocks in
order. -/
def specMergedValue (blocks : List (List (String × String)))
    (k : String) : Option String :=
  ((blocks.flatten.reverse).find? (fun kv => kv.1 == k)).map (fun kv => kv.2)

/-! ### Proof-side abbreviations and concrete fetch functions -/

/-- The characters of one `key:value` entry of a flattened block. -/
def sraEntryChars (kv : String × String) : List Char :=
  kv.1.data ++ ':' :: kv.2.data

/-- The characters one rendering-loop iteration appends: the entry plus
`'|'`. -/
def sraChunkChars (kv : String × String) : List Char :=
  sraEntryChars kv ++ ['|']

/-- The version number an accession's second dot-segment parses to,
taken as `0` when it does not parse; measure for the fallback walk. -/
def verNat (a : String) : Nat :=
  match parsedVersion a with
  | some v => v.toNat
  | none => 0

/-- Sum over the worklist of `verNat + 1`: strictly decreases at every
step of `scrapeLoop` that keeps running. -/
def queueMeasure (queue : List String) : Nat :=
  (queue.map (fun a => verNat a + 1)).sum

/-- A registry stub that answers every request with the same sampleless
document for `phs1.v2.p1`: the driver then never stops re-enqueuing
`phs1.v1.p1`. -/
def loopingFetch : String → Option StudyDoc :=
  fun _ => some ⟨"phs1.v2.p1", []⟩

/-- A registry stub that answers every request with the requested
accession and no samples. -/
def echoEmptyFetch : String → Option StudyDoc :=
  fun a => some ⟨a, []⟩

/-- A registry stub that answers every request with the same one-sample
document for `phs1.v1.p1`. -/
def constSampleFetch : String → Option StudyDoc :=
  fun _ => some ⟨"phs1.v1.p1", [⟨[("submitted_subject_id", "A")], [], []⟩]⟩

/-- Two adjacent characters are not both `'"'` — the pattern
`replace('""', '"')` looks for. -/
def noQQPair (a b : Char) : Prop :=
  ¬(a = '"' ∧ b = '"')

/-! ## Lemmas about the Python dict model -/

theorem find?_overwrite_self (d : List (String × String)) (k v : String)
    (hmem : pyDictMem d k = true) :
    List.find? (fun p => p.1 == k)
      (d.map (fun p => if p.1 == k then (k, v) else p)) = some (k, v) := by
  induction d with
  | nil => simp [pyDictMem] at hmem
  | cons p rest ih =>
    by_cases hp : (p.1 == k) = true
    · simp only [List.map_cons, hp, if_true, List.find?]
      simp
    · simp only [List.map_cons, hp, if_false, Bool.false_eq_true, List.find?, hp]
      have hrest : pyDictMem rest k = true := by
        simpa [pyDictMem, List.any_cons, hp] using hmem
      exact ih hrest

theorem find?_overwrite_ne (d : List (String × String)) (k' v k : String)
    (h : k ≠ k') :
    List.find? (fun p => p.1 == k)
      (d.map (fun p => if p.1 == k' then (k', v) else p)) =
    List.find? (fun p => p.1 == k) d := by
  induction d with
  | nil => rfl
  | cons p rest ih =>
    by_cases hp : (p.1 == k') = true
    · have hp1 : p.1 = k' := by simpa using hp
      have hkk : (k' == k) = false := by
        simp [beq_iff_eq]; exact fun hh => h hh.symm
      have hpk : (p.1 == k) = false := by
        simp [hp1, beq_iff_eq]; exact fun hh => h hh.symm
      simp only [List.map_cons, hp, if_true, List.find?, hkk, hpk]
      exact ih
    · simp only [List.map_cons, hp, if_false, Bool.false_eq_true, List.find?]
      by_cases hpk : (p.1 == k) = true
      · simp [hpk]
      · simp only [hpk]
        exact ih

theorem pyDictGet_set_self (d : List (String × String)) (k v : String) :
    pyDictGet (pyDictSet d k v) k = some v := by
  unfold pyDictSet
  split
  · rename_i hmem
    unfold pyDictGet
    rw [find?_overwrite_self d k v hmem]
    rfl
  · rename_i hmem
    unfold pyDictGet
    have hfind : (d.find? (fun p => p.1 == k)) = none := by
      rw [List.find?_eq_none]
      intro p hp hbeq
      exact hmem (List.any_eq_true.2 ⟨p, hp, hbeq⟩)
    rw [List.find?_append, hfind]
    simp [List.find?]

theorem pyDictGet_set_ne (d : List (String × String)) (k' v k : String)
    (h : k ≠ k') : pyDictGet (pyDictSet d k' v) k = pyDictGet d k := by
  unfold pyDictSet
  split
  · unfold pyDictGet
    rw [find?_overwrite_ne d k' v k h]
  · unfold pyDictGet
    rw [List.find?_append]
    have hone : List.find? (fun p => p.1 == k) [(k', v)] = none := by
      have hkk : (k' == k) = false := by
        simp [beq_iff_eq]
        intro hh
        exact h hh.symm
      simp [List.find?, hkk]
    cases hfd : List.find? (fun p => p.1 == k) d <;> simp [hone, hfd]

theorem pyDictMem_eq_isSome_get (d : List (String × String)) (k : String) :
    pyDictMem d k = (pyDictGet d k).isSome := by
  induction d with
  | nil => rfl
  | cons p rest ih =>
    by_cases hp : (p.1 == k) = true
    · simp [pyDictMem, pyDictGet, List.find?, hp]
    · simp only [pyDictMem, List.any_cons, hp, Bool.false_or]
      simp only [pyDictGet, List.find?, hp]
      exact ih

theorem pyDictMem_set (d : List (String × String)) (k' v k : String) :
    pyDictMem (pyDictSet d k' v) k = (k == k' || pyDictMem d k) := by
  by_cases hk : k = k'
  · subst hk
    rw [pyDictMem_eq_isSome_get, pyDictGet_set_self]
    simp
  · rw [pyDictMem_eq_isSome_get, pyDictGet_set_ne d k' v k hk,
      ← pyDictMem_eq_isSome_get]
    have : (k == k') = false := by simpa using hk
    simp [this]

theorem pyDictGet_of_nodup (d : List (String × String)) (p : String × String)
    (hnd : (d.map Prod.fst).Nodup) (hp : p ∈ d) :
    pyDictGet d p.1 = some p.2 := by
  induction d with
  | nil => cases hp
  | cons q rest ih =>
    rcases List.mem_cons.1 hp with h | h
    · subst h
      simp [pyDictGet, List.find?]
    · have hq : q.1 ≠ p.1 := by
        intro he
        have : p.1 ∈ rest.map Prod.fst := List.mem_map_of_mem Prod.fst h
        rw [List.map_cons, List.nodup_cons] at hnd
        exact hnd.1 (he ▸ this)
      have : (q.1 == p.1) = false := by simpa using hq
      simp only [pyDictGet, List.find?, this]
      exact ih (by rw [List.map_cons, List.nodup_cons] at hnd; exact hnd.2) h

theorem mem_pyDictSet (d : List (String × String)) (k v : String)
    (p : String × String) (hp : p ∈ pyDictSet d k v) :
    p ∈ d ∨ p = (k, v) := by
  unfold pyDictSet at hp
  split at hp
  · obtain ⟨q, hq, hqe⟩ := List.mem_map.1 hp
    by_cases h : q.1 = k
    · right; rw [if_pos (by simpa using h)] at hqe; exact hqe.symm
    · left; rw [if_neg (by simpa using h)] at hqe; exact hqe ▸ hq
  · rcases List.mem_append.1 hp with h | h
    · exact Or.inl h
    · right; simpa using h

/-! ## Lemmas about splitting and joining on dots -/

theorem splitDotChars_ne_nil (l : List Char) : splitDotChars l ≠ [] := by
  induction l with
  | nil => simp [splitDotChars]
  | cons c cs ih =>
    unfold splitDotChars
    by_cases hc : c = '.'
    · simp [hc]
    · simp only [hc, if_false]
      cases h : splitDotChars cs with
      | nil => simp
      | cons s ss => simp

theorem not_dot_mem_of_mem_splitDotChars (l : List Char) (seg : List Char)
    (hseg : seg ∈ splitDotChars l) : '.' ∉ seg := by
  induction l generalizing seg with
  | nil =>
    simp [splitDotChars] at hseg
    subst hseg
    simp
  | cons c cs ih =>
    unfold splitDotChars at hseg
    by_cases hc : c = '.'
    · rw [if_pos hc] at hseg
      rcases List.mem_cons.1 hseg with h | h
      · subst h; simp
      · exact ih seg h
    · rw [if_neg hc] at hseg
      cases hsp : splitDotChars cs with
      | nil => exact absurd hsp (splitDotChars_ne_nil cs)
      | cons s ss =>
        rw [hsp] at hseg
        rcases List.mem_cons.1 hseg with h | h
        · subst h
          intro hmem
          rcases List.mem_cons.1 hmem with h' | h'
          · exact hc h'.symm
          · exact ih s (by rw [hsp]; exact List.mem_cons_self s ss) h'
        · exact ih seg (by rw [hsp]; exact List.mem_cons_of_mem s h)

theorem splitDotChars_of_not_dot (a : List Char) (ha : '.' ∉ a) :
    splitDotChars a = [a] := by
  induction a with
  | nil => rfl
  | cons c cs ih =>
    have hc : c ≠ '.' := by
      intro h; exact ha (h ▸ List.mem_cons_self c cs)
    have hcs : '.' ∉ cs := fun h => ha (List.mem_cons_of_mem c h)
    unfold splitDotChars
    rw [if_neg (fun h => hc h)]
    rw [ih hcs]

theorem splitDotChars_append_dot (a rest : List Char) (ha : '.' ∉ a) :
    splitDotChars (a ++ '.' :: rest) = a :: splitDotChars rest := by
  induction a with
  | nil =>
    show (if '.' = '.' then [] :: splitDotChars rest
      else match splitDotChars rest with
        | [] => [['.']]
        | s :: ss => ('.' :: s) :: ss) = [] :: splitDotChars rest
    rw [if_pos rfl]
  | cons c cs ih =>
    have hc : c ≠ '.' := by
      intro h; exact ha (h ▸ List.mem_cons_self c cs)
    have hcs : '.' ∉ cs := fun h => ha (List.mem_cons_of_mem c h)
    show (if c = '.' then [] :: splitDotChars (cs ++ '.' :: rest)
      else match splitDotChars (cs ++ '.' :: rest) with
        | [] => [[c]]
        | s :: ss => (c :: s) :: ss) = (c :: cs) :: splitDotChars rest
    rw [if_neg hc, ih hcs]

theorem splitDotChars_join₃ (a b c : List Char)
    (ha : '.' ∉ a) (hb : '.' ∉ b) (hc : '.' ∉ c) :
    splitDotChars (joinSepChars ['.'] [a, b, c]) = [a, b, c] := by
  have hjoin : joinSepChars ['.'] [a, b, c] = a ++ '.' :: (b ++ '.' :: c) := by
    show a ++ ['.'] ++ (b ++ ['.'] ++ c) = a ++ '.' :: (b ++ '.' :: c)
    simp [List.append_assoc]
  rw [hjoin, splitDotChars_append_dot a _ ha, splitDotChars_append_dot b _ hb,
    splitDotChars_of_not_dot c hc]

theorem string_data_mk (l : List Char) : (String.mk l).data = l := rfl

theorem string_data_empty : ("" : String).data = [] := rfl

theorem pySplit_data_of_eq₃ (s : String) (p0 p1 p2 : String)
    (h : pySplit s = [p0, p1, p2]) :
    splitDotChars s.data = [p0.data, p1.data, p2.data] := by
  have h2 := congrArg (List.map String.data) h
  have h3 : (String.data ∘ fun l : List Char => (⟨l⟩ : String)) = id := by
    funext l
    rfl
  simpa [pySplit, List.map_map, h3, List.map_id] using h2

/-! ## Lemmas about the decimal printer and `int()` -/

theorem natToCharsAux_ne_nil (fuel n : Nat) (h : n < fuel) :
    natToCharsAux fuel n ≠ [] := by
  cases fuel with
  | zero => omega
  | succ f =>
    unfold natToCharsAux
    by_cases h10 : n < 10
    · simp [h10]
    · simp [h10]

theorem digitCh_isDigit (n : Nat) (h : n < 10) : isDigitCh (digitCh n) = true := by
  have : ∀ m, m < 10 → isDigitCh (digitCh m) = true := by decide
  exact this n h

theorem digitCh_toNat (n : Nat) (h : n < 10) : (digitCh n).toNat = 48 + n := by
  have : ∀ m, m < 10 → (digitCh m).toNat = 48 + m := by decide
  exact this n h

theorem isDigit_of_mem_natToCharsAux (fuel n : Nat) (c : Char)
    (hc : c ∈ natToCharsAux fuel n) : isDigitCh c = true := by
  induction fuel generalizing n with
  | zero => cases hc
  | succ f ih =>
    unfold natToCharsAux at hc
    by_cases h10 : n < 10
    · rw [if_pos h10] at hc
      rcases List.mem_cons.1 hc with h | h
      · exact h ▸ digitCh_isDigit n h10
      · cases h
    · rw [if_neg h10] at hc
      rcases List.mem_append.1 hc with h | h
      · exact ih (n / 10) h
      · rcases List.mem_cons.1 h with h' | h'
        · exact h' ▸ digitCh_isDigit (n % 10) (Nat.mod_lt n (by omega))
        · cases h'

theorem isDigitCh_toNat_bounds (c : Char) (h : isDigitCh c = true) :
    48 ≤ c.toNat ∧ c.toNat ≤ 57 := by
  unfold isDigitCh at h
  exact of_decide_eq_true h

theorem pyIsSpace_false_of_digit (c : Char) (h : isDigitCh c = true) :
    pyIsSpace c = false := by
  have hb := isDigitCh_toNat_bounds c h
  unfold pyIsSpace
  rw [decide_eq_false_iff_not]
  omega

theorem dropWhile_eq_self_of_all (p : Char → Bool) (l : List Char)
    (h : ∀ c ∈ l, p c = false) : l.dropWhile p = l := by
  cases l with
  | nil => rfl
  | cons c cs =>
    have hc := h c (List.mem_cons_self c cs)
    simp [List.dropWhile, hc]

theorem pyStripWs_of_no_space (l : List Char)
    (h : ∀ c ∈ l, pyIsSpace c = false) : pyStripWs l = l := by
  unfold pyStripWs
  rw [dropWhile_eq_self_of_all pyIsSpace l h]
  rw [dropWhile_eq_self_of_all pyIsSpace l.reverse
    (fun c hc => h c (List.mem_reverse.1 hc))]
  exact List.reverse_reverse l

theorem pyIntUSGo_of_digits (l : List Char) :
    ∀ acc : Nat, (∀ c ∈ l, isDigitCh c = true) →
    pyIntUSGo l acc = pyIntNatGo l acc := by
  induction l with
  | nil =>
    intro acc _
    rfl
  | cons c cs ih =>
    intro acc h
    have hc := h c (List.mem_cons_self c cs)
    have hl : pyIntUSGo (c :: cs) acc =
        pyIntUSGo cs (acc * 10 + (c.toNat - 48)) := by
      conv_lhs => unfold pyIntUSGo
      rw [if_pos hc]
    have hr : pyIntNatGo (c :: cs) acc =
        pyIntNatGo cs (acc * 10 + (c.toNat - 48)) := by
      simp only [pyIntNatGo, hc, if_true]
    rw [hl, hr]
    exact ih _ (fun c' hc' => h c' (List.mem_cons_of_mem c hc'))

theorem pyIntNatGo_append (l₁ l₂ : List Char) (acc : Nat) :
    pyIntNatGo (l₁ ++ l₂) acc =
      (pyIntNatGo l₁ acc).bind (fun m => pyIntNatGo l₂ m) := by
  induction l₁ generalizing acc with
  | nil => rfl
  | cons c cs ih =>
    simp only [List.cons_append, pyIntNatGo]
    by_cases hd : isDigitCh c = true
    · simp only [hd, if_true]
      exact ih _
    · simp [hd]

theorem pyIntNatGo_natToCharsAux (fuel n : Nat) (h : n < fuel) :
    pyIntNatGo (natToCharsAux fuel n) 0 = some n := by
  induction fuel generalizing n with
  | zero => omega
  | succ f ih =>
    unfold natToCharsAux
    by_cases h10 : n < 10
    · rw [if_pos h10]
      simp only [pyIntNatGo, digitCh_isDigit n h10, if_true,
        digitCh_toNat n h10]
      simp
    · rw [if_neg h10]
      rw [pyIntNatGo_append]
      have hdiv : n / 10 < f := by
        have h1 : n / 10 < n := Nat.div_lt_self (by omega) (by omega)
        omega
      rw [ih (n / 10) hdiv]
      have hm : n % 10 < 10 := Nat.mod_lt n (by omega)
      simp only [pyIntNatGo, digitCh_isDigit _ hm, if_true, digitCh_toNat _ hm]
      have heq : n / 10 * 10 + (48 + n % 10 - 48) = n := by omega
      exact congrArg some heq

theorem digit_mem_pyStrNat (n : Nat) :
    ∀ c ∈ (pyStrNat n).data, isDigitCh c = true := by
  intro c hc
  exact isDigit_of_mem_natToCharsAux (n + 1) n c
    (by simpa [pyStrNat, string_data_mk] using hc)

theorem pyIntNat_pyStrNat (n : Nat) : pyIntNat (pyStrNat n).data = some n := by
  cases hd : (pyStrNat n).data with
  | nil =>
    exact absurd hd
      (by unfold pyStrNat
          simpa using natToCharsAux_ne_nil (n + 1) n (by omega))
  | cons c cs =>
    have hc : isDigitCh c = true :=
      digit_mem_pyStrNat n c (by rw [hd]; exact List.mem_cons_self c cs)
    have hcs : ∀ c' ∈ cs, isDigitCh c' = true := fun c' hc' =>
      digit_mem_pyStrNat n c' (by rw [hd]; exact List.mem_cons_of_mem c hc')
    have hgo : pyIntNatGo (c :: cs) 0 = some n := by
      rw [← hd]
      show pyIntNatGo (natToCharsAux (n + 1) n) 0 = some n
      exact pyIntNatGo_natToCharsAux (n + 1) n (by omega)
    have hstep : pyIntNatGo (c :: cs) 0 = pyIntNatGo cs (c.toNat - 48) := by
      simp [pyIntNatGo, hc]
    show (if isDigitCh c = true then pyIntUSGo cs (c.toNat - 48) else none) =
      some n
    rw [if_pos hc, pyIntUSGo_of_digits cs (c.toNat - 48) hcs, ← hstep]
    exact hgo

theorem pyInt_pyStrNat (n : Nat) : pyInt (pyStrNat n) = some (n : Int) := by
  have hstrip : pyStripWs (pyStrNat n).data = (pyStrNat n).data :=
    pyStripWs_of_no_space _
      (fun c hc => pyIsSpace_false_of_digit c (digit_mem_pyStrNat n c hc))
  cases hd : (pyStrNat n).data with
  | nil =>
    exact absurd hd
      (by unfold pyStrNat
          simpa using natToCharsAux_ne_nil (n + 1) n (by omega))
  | cons c cs =>
    have hcdig : isDigitCh c = true :=
      digit_mem_pyStrNat n c (by rw [hd]; exact List.mem_cons_self c cs)
    have hb := isDigitCh_toNat_bounds c hcdig
    have hcm : c ≠ '-' := by
      intro he
      rw [he] at hb
      simp at hb
    have hcp : c ≠ '+' := by
      intro he
      rw [he] at hb
      simp at hb
    rw [hd] at hstrip
    simp only [pyInt, hd, hstrip]
    rw [if_neg hcm, if_neg hcp]
    rw [← hd, pyIntNat_pyStrNat n]
    rfl

theorem pyInt_pyStrInt (i : Int) : pyInt (pyStrInt i) = some i := by
  by_cases hneg : i < 0
  · have h1 : pyStrInt i = "-" ++ pyStrNat (-i).toNat := by
      unfold pyStrInt
      rw [if_pos hneg]
    have hdata : (pyStrInt i).data = '-' :: (pyStrNat (-i).toNat).data := by
      rw [h1, String.data_append]
      rfl
    have hnos : ∀ c ∈ (pyStrInt i).data, pyIsSpace c = false := by
      rw [hdata]
      intro c hc
      rcases List.mem_cons.1 hc with h | h
      · rw [h]
        decide
      · exact pyIsSpace_false_of_digit c (digit_mem_pyStrNat _ c h)
    have hstrip : pyStripWs (pyStrInt i).data = (pyStrInt i).data :=
      pyStripWs_of_no_space _ hnos
    rw [hdata] at hstrip
    simp only [pyInt, hdata, hstrip]
    rw [if_pos trivial, pyIntNat_pyStrNat]
    show some (-(((-i).toNat : Nat) : Int)) = some i
    congr 1
    omega
  · have h1 : pyStrInt i = pyStrNat i.toNat := by
      unfold pyStrInt
      rw [if_neg hneg]
    rw [h1, pyInt_pyStrNat]
    congr 1
    omega

/-! ## Claim C1: the version-fallback resolver -/

theorem pyStrInt_coe_nonneg (j : Int) (h : 0 ≤ j) :
    pyStrInt j = pyStrNat j.toNat := by
  unfold pyStrInt
  rw [if_neg (by omega)]

/-- C1: for every study accession of the form `phs<digits>.v<k>.p<digits>`
with `k > 1`, `_get_previous_version_of_study_accession` returns the
accession with the version segment rewritten to `v<k-1>` and the first
and third segments unchanged; for `k = 1` it returns the source's `None`
("no fallback").  (Stated for any three-segment accession whose second
segment is `v` followed by the decimal digits of `k ≥ 1`.) -/
theorem C1_previous_version (a p0 vs p2 : String) (k : Nat)
    (hsplit : pySplit a = [p0, vs, p2])
    (hvs : vs.data = 'v' :: (pyStrNat k).data)
    (hk : 1 ≤ k) :
    (k = 1 → _get_previous_version_of_study_accession a = some none) ∧
    (1 < k → _get_previous_version_of_study_accession a =
      some (some (joinDot [p0, "v" ++ pyStrNat (k - 1), p2]))) := by
  have hdrop : (⟨vs.data.drop 1⟩ : String) = pyStrNat k := by
    rw [hvs]
    rfl
  have hbody : _get_previous_version_of_study_accession a =
      (if (k : Int) = 1 then some none
       else some (some (joinDot [p0, "v" ++ pyStrInt ((k : Int) - 1), p2]))) := by
    unfold _get_previous_version_of_study_accession
    rw [hsplit]
    show (match pyInt ⟨vs.data.drop 1⟩ with
      | none => none
      | some version_number =>
        if version_number = 1 then some none
        else some (some (joinDot
          [p0, "v" ++ pyStrInt (version_number - 1), p2]))) = _
    rw [hdrop, pyInt_pyStrNat]
  constructor
  · intro hk1
    subst hk1
    rw [hbody]
    rfl
  · intro hk1
    rw [hbody]
    rw [if_neg (by omega)]
    have hco : pyStrInt ((k : Int) - 1) = pyStrNat (k - 1) := by
      rw [pyStrInt_coe_nonneg _ (by omega)]
      congr 1
      omega
    rw [hco]

/-- Witness for C1 at the spec's own examples. -/
theorem C1_previous_version_witness :
    _get_previous_version_of_study_accession "phs001143.v2.p1" =
      some (some "phs001143.v1.p1") ∧
    _get_previous_version_of_study_accession "phs001143.v1.p1" = some none := by
  constructor
  · have h := (C1_previous_version "phs001143.v2.p1" "phs001143" "v2" "p1" 2
      (by decide) (by decide) (by decide)).2 (by decide)
    rw [h]
    rfl
  · exact (C1_previous_version "phs001143.v1.p1" "phs001143" "v1" "p1" 1
      (by decide) (by decide) (by decide)).1 rfl

/-! ## Lemmas about the flattened SRA rendering -/

theorem sra_foldl_data (b : List (String × String)) (acc : String) :
    (b.foldl (fun s kv => s ++ kv.1 ++ ":" ++ kv.2 ++ "|") acc).data =
      acc.data ++ (b.map sraChunkChars).flatten := by
  induction b generalizing acc with
  | nil => simp
  | cons kv rest ih =>
    show (rest.foldl (fun s kv => s ++ kv.1 ++ ":" ++ kv.2 ++ "|")
        (acc ++ kv.1 ++ ":" ++ kv.2 ++ "|")).data = _
    rw [ih]
    simp [String.data_append, sraChunkChars, sraEntryChars, string_data_mk]

theorem sra_chunks_flatten (b : List (String × String)) (hb : b ≠ []) :
    (b.map sraChunkChars).flatten =
      joinSepChars ['|'] (b.map sraEntryChars) ++ ['|'] := by
  induction b with
  | nil => exact absurd rfl hb
  | cons kv rest ih =>
    cases rest with
    | nil => simp [sraChunkChars, joinSepChars]
    | cons kv' rest' =>
      have h2 : (List.map sraChunkChars (kv :: kv' :: rest')).flatten =
          sraChunkChars kv ++ (List.map sraChunkChars (kv' :: rest')).flatten := by
        simp
      rw [h2, ih (by simp)]
      show sraChunkChars kv ++ _ =
        (sraEntryChars kv ++ ['|'] ++
          joinSepChars ['|'] (List.map sraEntryChars (kv' :: rest'))) ++ ['|']
      simp [sraChunkChars]

theorem specRenderStatBlock_data (b : List (String × String)) :
    (specRenderStatBlock b).data =
      '(' :: (joinSepChars ['|'] (b.map sraEntryChars) ++ [')', ' ']) := by
  unfold specRenderStatBlock
  have hmap : b.map (fun kv => (kv.1 ++ ":" ++ kv.2).data) =
      b.map sraEntryChars := by
    apply List.map_congr_left
    intro kv _
    simp [String.data_append, sraEntryChars]
  rw [String.data_append, String.data_append, hmap]
  simp [string_data_mk]

theorem pyStripLastBarWrap_concat (acc s : String) (x : List Char)
    (hx : s.data = x ++ ['|']) :
    pyStripLastBarWrap acc s = some (acc ++ "(" ++ (⟨x⟩ : String) ++ ") ") := by
  unfold pyStripLastBarWrap
  rw [hx, List.getLast?_concat]
  show some (acc ++ "(" ++
      (if '|' = '|' then (⟨(x ++ ['|']).dropLast⟩ : String) else s) ++ ") ") = _
  rw [if_pos rfl, List.dropLast_concat]

theorem flattenOneStatBlock_of_ne_nil (acc : String)
    (b : List (String × String)) (hb : b ≠ []) :
    flattenOneStatBlock acc b = some (acc ++ specRenderStatBlock b) := by
  unfold flattenOneStatBlock
  have hdata : (b.foldl (fun s kv => s ++ kv.1 ++ ":" ++ kv.2 ++ "|") "").data =
      joinSepChars ['|'] (b.map sraEntryChars) ++ ['|'] := by
    rw [sra_foldl_data, sra_chunks_flatten b hb]
    rfl
  rw [pyStripLastBarWrap_concat acc _ _ hdata]
  congr 1
  apply String.ext
  simp [String.data_append, string_data_mk, specRenderStatBlock_data]

theorem flattenOneStatBlock_nil (acc : String) :
    flattenOneStatBlock acc [] = none := rfl

theorem foldlM_flattenOne_cons (acc : String)
    (b : List (String × String)) (rest : List (List (String × String))) :
    List.foldlM flattenOneStatBlock acc (b :: rest) =
      (flattenOneStatBlock acc b).bind
        (fun a => List.foldlM flattenOneStatBlock a rest) := rfl

theorem sra_foldlM_of_all_ne_nil (blocks : List (List (String × String)))
    (acc : String) (hb : ∀ b ∈ blocks, b ≠ []) :
    List.foldlM flattenOneStatBlock acc blocks =
      some (acc ++ specFlattenedSraDetails blocks) := by
  induction blocks generalizing acc with
  | nil =>
    show some acc = some (acc ++ specFlattenedSraDetails [])
    congr 1
    apply String.ext
    simp [specFlattenedSraDetails, String.data_append, string_data_mk]
  | cons b rest ih =>
    have hbne : b ≠ [] := hb b (List.mem_cons_self b rest)
    have hstep : List.foldlM flattenOneStatBlock acc (b :: rest) =
        List.foldlM flattenOneStatBlock (acc ++ specRenderStatBlock b) rest := by
      rw [foldlM_flattenOne_cons, flattenOneStatBlock_of_ne_nil acc b hbne]
      rfl
    rw [hstep, ih _ (fun b' hb' => hb b' (List.mem_cons_of_mem b hb'))]
    congr 1
    apply String.ext
    simp [specFlattenedSraDetails, String.data_append, string_data_mk]

theorem flattened_sra_of_all_ne_nil (blocks : List (List (String × String)))
    (hb : ∀ b ∈ blocks, b ≠ []) :
    _get_flattened_sra_data_details_from_xml_sample blocks =
      some (specFlattenedSraDetails blocks) := by
  unfold _get_flattened_sra_data_details_from_xml_sample
  rw [sra_foldlM_of_all_ne_nil blocks "" hb]
  congr 1

theorem flattened_sra_isSome_iff (blocks : List (List (String × String))) :
    (_get_flattened_sra_data_details_from_xml_sample blocks).isSome = true ↔
      ∀ b ∈ blocks, b ≠ [] := by
  unfold _get_flattened_sra_data_details_from_xml_sample
  constructor
  · intro hs b hbmem hbnil
    subst hbnil
    rcases List.append_of_mem hbmem with ⟨pre, post, hsplit⟩
    rw [hsplit] at hs
    have haux : ∀ (pre : List (List (String × String))) (acc : String),
        (List.foldlM flattenOneStatBlock acc (pre ++ [] :: post)).isSome = true →
        False := by
      intro pre
      induction pre with
      | nil =>
        intro acc h
        simp only [List.nil_append] at h
        rw [foldlM_flattenOne_cons, flattenOneStatBlock_nil] at h
        simp at h
      | cons q qs ih =>
        intro acc h
        simp only [List.cons_append] at h
        rw [foldlM_flattenOne_cons] at h
        cases hfq : flattenOneStatBlock acc q with
        | none => rw [hfq] at h; simp at h
        | some a =>
          rw [hfq] at h
          exact ih a h
    exact haux pre "" hs
  · intro hb
    rw [sra_foldlM_of_all_ne_nil blocks "" hb]
    rfl

/-! ## Claims C2 and C10: the flattened SRA encoding -/

/-- Counterexample to C2 as stated: a `Stats` block with zero attributes
is a well-formed block list, the spec rendering of it is `"() "`, but
the source raises (`stats_as_string[-1]` on the empty string) instead of
rendering it. -/
theorem C2_counterexample :
    _get_flattened_sra_data_details_from_xml_sample [[]] = none ∧
    specFlattenedSraDetails [[]] = "() " ∧
    _get_flattened_sra_data_details_from_xml_sample [[]] ≠
      some (specFlattenedSraDetails [[]]) := by
  exact ⟨rfl, by decide, by decide⟩

/-- C2 (amended: restricted to samples whose statistic blocks each carry
at least one attribute): the flattened `sra_data_details` encoding
renders each block as its `key:value` pairs joined by `|` in block
order, wraps each block in parentheses with the trailing `|` stripped,
separates blocks by a single trailing space after each closing
parenthesis, and yields the empty string for the empty block list. -/
theorem C2_flattened_rendering (blocks : List (List (String × String)))
    (hb : ∀ b ∈ blocks, b ≠ []) :
    _get_flattened_sra_data_details_from_xml_sample blocks =
      some (specFlattenedSraDetails blocks) :=
  flattened_sra_of_all_ne_nil blocks hb

/-- Witness for C2 at the spec's own example block, plus the
empty-block-list case. -/
theorem C2_flattened_rendering_witness :
    _get_flattened_sra_data_details_from_xml_sample
      [[("status", "public"), ("experiments", "1"), ("runs", "3"),
        ("bases", "406977793500"), ("size_Gb", "74"),
        ("experiment_type", "WGS"), ("platform", "ILLUMINA"),
        ("center", "ABC Fast Track Services")]] =
      some "(status:public|experiments:1|runs:3|bases:406977793500|size_Gb:74|experiment_type:WGS|platform:ILLUMINA|center:ABC Fast Track Services) " ∧
    _get_flattened_sra_data_details_from_xml_sample [] = some "" := by
  constructor
  · rw [C2_flattened_rendering _ (by decide)]
    rfl
  · rw [C2_flattened_rendering [] (by decide)]
    rfl

theorem get_sample_dict_sra_none (acc : String) (s : XmlSample) (e : Bool)
    (h : (if e then some (_get_sra_data_details_from_xml_sample s.sraStats)
          else _get_flattened_sra_data_details_from_xml_sample s.sraStats) =
         none) :
    get_sample_dict_from_xml_sample acc s e = none := by
  simp only [get_sample_dict_from_xml_sample, h]

/-- C10: the flattened SRA renderer returns normally exactly for block
lists whose blocks each carry at least one attribute; a `Stats` block
with zero attributes makes it index into the empty string and raise, so
that sample's flattening (in the default, non-expanded mode) fails and
the sample's row is dropped. -/
theorem C10_flattened_totality (blocks : List (List (String × String)))
    (acc : String) (s : XmlSample) :
    ((_get_flattened_sra_data_details_from_xml_sample blocks).isSome = true ↔
      ∀ b ∈ blocks, b ≠ []) ∧
    ([] ∈ s.sraStats → row_for_sample acc s false = none) := by
  constructor
  · exact flattened_sra_isSome_iff blocks
  · intro hmem
    have hnone : _get_flattened_sra_data_details_from_xml_sample s.sraStats =
        none := by
      cases hf : _get_flattened_sra_data_details_from_xml_sample s.sraStats with
      | none => rfl
      | some v =>
        have hiff := (flattened_sra_isSome_iff s.sraStats).1 (by rw [hf]; rfl)
        exact absurd rfl (hiff [] hmem)
    have hdict : get_sample_dict_from_xml_sample acc s false = none := by
      apply get_sample_dict_sra_none
      simpa using hnone
    unfold row_for_sample
    rw [hdict]
    rfl

/-- Witness for C10: a concrete sample whose single `Stats` block has no
attributes is skipped. -/
theorem C10_flattened_totality_witness :
    row_for_sample "phs000001.v1.p1"
      ⟨[("submitted_subject_id", "A")], [], [[]]⟩ false = none :=
  (C10_flattened_totality [[]] "phs000001.v1.p1"
    ⟨[("submitted_subject_id", "A")], [], [[]]⟩).2 (by decide)

/-! ## Claim C5: a failing sample only loses its own row -/

theorem write_sample_rows_foldl_init (acc : String) (e : Bool)
    (samples : List XmlSample) (init : List (List String)) :
    samples.foldl
      (fun rows sample =>
        match row_for_sample acc sample e with
        | some row => rows ++ [row]
        | none => rows) init =
    init ++ samples.filterMap (fun s => row_for_sample acc s e) := by
  induction samples generalizing init with
  | nil => simp
  | cons s rest ih =>
    show rest.foldl _
        (match row_for_sample acc s e with
          | some row => init ++ [row]
          | none => init) = _
    cases hrow : row_for_sample acc s e with
    | some r =>
      rw [ih (init ++ [r])]
      rw [List.filterMap_cons]
      rw [hrow]
      simp
    | none =>
      rw [ih init]
      rw [List.filterMap_cons]
      rw [hrow]

theorem write_sample_rows_eq_filterMap (acc : String) (e : Bool)
    (samples : List XmlSample) :
    write_sample_rows_for_study acc samples e =
      samples.filterMap (fun s => row_for_sample acc s e) := by
  unfold write_sample_rows_for_study
  rw [write_sample_rows_foldl_init]
  simp

/-- C5: when flattening one sample fails (its row computation raises —
for example `submitted_subject_id` is absent), only that sample's row
is omitted: the study's samples before and after it are still flattened
and written in order, and processing completes normally. -/
theorem C5_failed_sample_skipped (acc : String) (e : Bool)
    (pre post : List XmlSample) (bad : XmlSample)
    (hbad : row_for_sample acc bad e = none) :
    write_sample_rows_for_study acc (pre ++ bad :: post) e =
      write_sample_rows_for_study acc pre e ++
        write_sample_rows_for_study acc post e := by
  rw [write_sample_rows_eq_filterMap, write_sample_rows_eq_filterMap,
    write_sample_rows_eq_filterMap]
  rw [List.filterMap_append, List.filterMap_cons, hbad]

/-- Witness for C5: a sample lacking `submitted_subject_id` sits between
two good samples; exactly its row is missing. -/
theorem C5_failed_sample_skipped_witness :
    write_sample_rows_for_study "phs000009.v1.p1"
      [⟨[("submitted_subject_id", "X")], [], []⟩,
       ⟨[("sex", "female")], [], []⟩,
       ⟨[("submitted_subject_id", "Y")], [], []⟩] false =
    write_sample_rows_for_study "phs000009.v1.p1"
      [⟨[("submitted_subject_id", "X")], [], []⟩] false ++
    write_sample_rows_for_study "phs000009.v1.p1"
      [⟨[("submitted_subject_id", "Y")], [], []⟩] false :=
  C5_failed_sample_skipped "phs000009.v1.p1" false
    [⟨[("submitted_subject_id", "X")], [], []⟩]
    [⟨[("submitted_subject_id", "Y")], [], []⟩]
    ⟨[("sex", "female")], [], []⟩ (by decide)

/-! ## Claims C3 and C4: derived consent and subject-id fields -/

theorem get_sample_dict_sra_some (acc : String) (s : XmlSample) (e : Bool)
    (sra : String)
    (h : (if e then some (_get_sra_data_details_from_xml_sample s.sraStats)
          else _get_flattened_sra_data_details_from_xml_sample s.sraStats) =
         some sra) :
    get_sample_dict_from_xml_sample acc s e =
      (match pyDictGet (sampleDictD4 s acc sra) "study_accession" with
       | none => none
       | some acc_in_dict =>
         match pyDictGet (sampleDictD4 s acc sra) "submitted_subject_id" with
         | none => none
         | some ssid =>
           some (pyDictSet (sampleDictD4 s acc sra) "study_subject_id"
             (joinDot ((pySplit acc_in_dict).dropLast) ++ "_" ++ ssid))) := by
  simp only [get_sample_dict_from_xml_sample, h]

theorem d3_get_study_accession (s : XmlSample) (acc sra : String) :
    pyDictGet (sampleDictD3 s acc sra) "study_accession" = some acc :=
  pyDictGet_set_self _ _ _

theorem d3_get_other (s : XmlSample) (acc sra k : String)
    (h1 : k ≠ "study_accession") (h2 : k ≠ "sra_data_details")
    (h3 : k ≠ "sample_use") :
    pyDictGet (sampleDictD3 s acc sra) k = pyDictGet s.attrib k := by
  unfold sampleDictD3
  rw [pyDictGet_set_ne _ _ _ _ h1, pyDictGet_set_ne _ _ _ _ h2,
    pyDictGet_set_ne _ _ _ _ h3]

theorem d3_mem_consent (s : XmlSample) (acc sra : String) :
    pyDictMem (sampleDictD3 s acc sra) "consent_code" =
      (pyDictGet s.attrib "consent_code").isSome := by
  rw [pyDictMem_eq_isSome_get,
    d3_get_other s acc sra _ (by decide) (by decide) (by decide)]

theorem d4_get_study_accession (s : XmlSample) (acc sra : String) :
    pyDictGet (sampleDictD4 s acc sra) "study_accession" = some acc := by
  unfold sampleDictD4
  split
  · rw [pyDictGet_set_ne _ _ _ _ (by decide),
      pyDictGet_set_ne _ _ _ _ (by decide)]
    exact d3_get_study_accession s acc sra
  · exact d3_get_study_accession s acc sra

theorem d4_get_ssid (s : XmlSample) (acc sra : String) :
    pyDictGet (sampleDictD4 s acc sra) "submitted_subject_id" =
      pyDictGet s.attrib "submitted_subject_id" := by
  unfold sampleDictD4
  split
  · rw [pyDictGet_set_ne _ _ _ _ (by decide),
      pyDictGet_set_ne _ _ _ _ (by decide)]
    exact d3_get_other s acc sra _ (by decide) (by decide) (by decide)
  · exact d3_get_other s acc sra _ (by decide) (by decide) (by decide)

theorem pyDictGet_eq_none_of_no_key (d : List (String × String)) (k : String)
    (h : ∀ p ∈ d, p.1 ≠ k) : pyDictGet d k = none := by
  unfold pyDictGet
  have hf : d.find? (fun p => p.1 == k) = none := by
    rw [List.find?_eq_none]
    intro p hp
    simpa using h p hp
  rw [hf]
  rfl

theorem joinDot_pair (a b : String) : joinDot [a, b] = a ++ "." ++ b := by
  apply String.ext
  show joinSepChars ['.'] [a.data, b.data] = (a ++ "." ++ b).data
  show a.data ++ ['.'] ++ b.data = (a ++ "." ++ b).data
  simp [String.data_append]

theorem joinDot_single (a : String) : joinDot [a] = a := rfl

/-- The successful result of `get_sample_dict_from_xml_sample`, fully
characterised: given that the SRA step produced `sra` and the sample has
`submitted_subject_id`, the result is `sampleDictD4` plus the
`study_subject_id` binding. -/
theorem get_sample_dict_eq_of_ssid (acc : String) (s : XmlSample) (e : Bool)
    (sra ssid : String)
    (hsra : (if e then some (_get_sra_data_details_from_xml_sample s.sraStats)
          else _get_flattened_sra_data_details_from_xml_sample s.sraStats) =
         some sra)
    (hssid : pyDictGet s.attrib "submitted_subject_id" = some ssid) :
    get_sample_dict_from_xml_sample acc s e =
      some (pyDictSet (sampleDictD4 s acc sra) "study_subject_id"
        (joinDot ((pySplit acc).dropLast) ++ "_" ++ ssid)) := by
  rw [get_sample_dict_sra_some acc s e sra hsra]
  rw [d4_get_study_accession, d4_get_ssid, hssid]

/-- If `get_sample_dict_from_xml_sample` succeeded, the SRA step
succeeded and the sample carries `submitted_subject_id`, and the result
is the characterised dict. -/
theorem get_sample_dict_some_inv (acc : String) (s : XmlSample) (e : Bool)
    (d : List (String × String))
    (hd : get_sample_dict_from_xml_sample acc s e = some d) :
    ∃ sra ssid,
      (if e then some (_get_sra_data_details_from_xml_sample s.sraStats)
       else _get_flattened_sra_data_details_from_xml_sample s.sraStats) =
        some sra ∧
      pyDictGet s.attrib "submitted_subject_id" = some ssid ∧
      d = pyDictSet (sampleDictD4 s acc sra) "study_subject_id"
        (joinDot ((pySplit acc).dropLast) ++ "_" ++ ssid) := by
  cases hsra : (if e then some (_get_sra_data_details_from_xml_sample s.sraStats)
      else _get_flattened_sra_data_details_from_xml_sample s.sraStats) with
  | none =>
    rw [get_sample_dict_sra_none acc s e hsra] at hd
    cases hd
  | some sra =>
    cases hssid : pyDictGet s.attrib "submitted_subject_id" with
    | none =>
      rw [get_sample_dict_sra_some acc s e sra hsra,
        d4_get_study_accession, d4_get_ssid, hssid] at hd
      cases hd
    | some ssid =>
      rw [get_sample_dict_eq_of_ssid acc s e sra ssid hsra hssid] at hd
      refine ⟨sra, ssid, rfl, rfl, ?_⟩
      exact (Option.some_inj.1 hd).symm

/-- C4: for every sample carrying `submitted_subject_id`, the derived
`study_subject_id` is the study accession with its trailing
participant-set segment dropped (first two dot-segments joined by `.`)
followed by `_` and the sample's `submitted_subject_id`. -/
theorem C4_study_subject_id (acc p0 p1 p2 : String) (s : XmlSample)
    (e : Bool) (sid : String) (d : List (String × String))
    (hacc : pySplit acc = [p0, p1, p2])
    (hsid : pyDictGet s.attrib "submitted_subject_id" = some sid)
    (hd : get_sample_dict_from_xml_sample acc s e = some d) :
    pyDictGet d "study_subject_id" = some (p0 ++ "." ++ p1 ++ "_" ++ sid) := by
  obtain ⟨sra, ssid, hsra, hssid, hdeq⟩ := get_sample_dict_some_inv acc s e d hd
  have hse : ssid = sid := by
    rw [hsid] at hssid
    exact (Option.some_inj.1 hssid).symm
  subst hdeq
  rw [pyDictGet_set_self]
  have hdl : (pySplit acc).dropLast = [p0, p1] := by
    rw [hacc]
    rfl
  rw [hdl, joinDot_pair, hse]

/-- Witness for C4 at the spec's example: accession `phs001234.v3.p1`
with `submitted_subject_id = "ABC"` yields `phs001234.v3_ABC`. -/
theorem C4_study_subject_id_witness :
    pyDictGet
      [("submitted_subject_id", "ABC"), ("sample_use", "[]"),
       ("sra_data_details", ""), ("study_accession", "phs001234.v3.p1"),
       ("study_subject_id", "phs001234.v3_ABC")] "study_subject_id" =
      some ("phs001234" ++ "." ++ "v3" ++ "_" ++ "ABC") :=
  C4_study_subject_id "phs001234.v3.p1" "phs001234" "v3" "p1"
    ⟨[("submitted_subject_id", "ABC")], [], []⟩ false "ABC"
    [("submitted_subject_id", "ABC"), ("sample_use", "[]"),
     ("sra_data_details", ""), ("study_accession", "phs001234.v3.p1"),
     ("study_subject_id", "phs001234.v3_ABC")]
    (by decide) (by decide) (by decide)

/-- C3: for every flattened sample row, `study_accession_with_consent`
and `study_with_consent` are both set iff `consent_code` is present on
the sample; when set, the former is `study_accession ++ ".c" ++ code`
and the latter the accession with its last two dot-segments dropped
`++ ".c" ++ code`; when `consent_code` is absent both keys are left
unset (so the TSV writer emits the empty string for both columns). -/
theorem C3_consent_fields (acc p0 p1 p2 : String) (s : XmlSample) (e : Bool)
    (d : List (String × String))
    (hkeys : ∀ p ∈ s.attrib, p.1 ∈ sourceAttributeNames)
    (hacc : pySplit acc = [p0, p1, p2])
    (hd : get_sample_dict_from_xml_sample acc s e = some d) :
    (∀ code, pyDictGet s.attrib "consent_code" = some code →
      pyDictGet d "study_accession_with_consent" =
        some (acc ++ ".c" ++ code) ∧
      pyDictGet d "study_with_consent" = some (p0 ++ ".c" ++ code)) ∧
    (pyDictGet s.attrib "consent_code" = none →
      pyDictGet d "study_accession_with_consent" = none ∧
      pyDictGet d "study_with_consent" = none) := by
  obtain ⟨sra, ssid, hsra, hssid, hdeq⟩ := get_sample_dict_some_inv acc s e d hd
  subst hdeq
  constructor
  · intro code hcode
    have hget3 : pyDictGet (sampleDictD3 s acc sra) "consent_code" =
        some code := by
      rw [d3_get_other s acc sra _ (by decide) (by decide) (by decide), hcode]
    have hmem : pyDictMem (sampleDictD3 s acc sra) "consent_code" = true := by
      rw [d3_mem_consent, hcode]
      rfl
    have hd4 : sampleDictD4 s acc sra =
        pyDictSet
          (pyDictSet (sampleDictD3 s acc sra) "study_accession_with_consent"
            (acc ++ ".c" ++
              (pyDictGet (sampleDictD3 s acc sra) "consent_code").getD ""))
          "study_with_consent"
          (joinDot ((pySplit acc).take ((pySplit acc).length - 2)) ++
            ".c" ++
            (pyDictGet (sampleDictD3 s acc sra) "consent_code").getD "") := by
      unfold sampleDictD4
      rw [if_pos hmem]
    constructor
    · rw [pyDictGet_set_ne _ _ _ _ (by decide), hd4,
        pyDictGet_set_ne _ _ _ _ (by decide), pyDictGet_set_self, hget3]
      rfl
    · rw [pyDictGet_set_ne _ _ _ _ (by decide), hd4, pyDictGet_set_self,
        hget3, hacc]
      rfl
  · intro hnone
    have hmem : pyDictMem (sampleDictD3 s acc sra) "consent_code" = false := by
      rw [d3_mem_consent, hnone]
      rfl
    have hd4 : sampleDictD4 s acc sra = sampleDictD3 s acc sra := by
      unfold sampleDictD4
      rw [if_neg (by rw [hmem]; simp)]
    have hnk1 : pyDictGet s.attrib "study_accession_with_consent" = none := by
      apply pyDictGet_eq_none_of_no_key
      intro p hp he
      have hmem2 := hkeys p hp
      rw [he] at hmem2
      exact absurd hmem2 (by decide)
    have hnk2 : pyDictGet s.attrib "study_with_consent" = none := by
      apply pyDictGet_eq_none_of_no_key
      intro p hp he
      have hmem2 := hkeys p hp
      rw [he] at hmem2
      exact absurd hmem2 (by decide)
    constructor
    · rw [pyDictGet_set_ne _ _ _ _ (by decide), hd4,
        d3_get_other s acc sra _ (by decide) (by decide) (by decide), hnk1]
    · rw [pyDictGet_set_ne _ _ _ _ (by decide), hd4,
        d3_get_other s acc sra _ (by decide) (by decide) (by decide), hnk2]

/-- Witness for C3: a sample with `consent_code = "1"` gets both consent
fields; the same sample without `consent_code` gets neither. -/
theorem C3_consent_fields_witness :
    (pyDictGet
        [("submitted_subject_id", "ABC"), ("consent_code", "1"),
         ("sample_use", "[]"), ("sra_data_details", ""),
         ("study_accession", "phs001234.v3.p1"),
         ("study_accession_with_consent", "phs001234.v3.p1.c1"),
         ("study_with_consent", "phs001234.c1"),
         ("study_subject_id", "phs001234.v3_ABC")]
        "study_accession_with_consent" =
      some ("phs001234.v3.p1" ++ ".c" ++ "1") ∧
     pyDictGet
        [("submitted_subject_id", "ABC"), ("consent_code", "1"),
         ("sample_use", "[]"), ("sra_data_details", ""),
         ("study_accession", "phs001234.v3.p1"),
         ("study_accession_with_consent", "phs001234.v3.p1.c1"),
         ("study_with_consent", "phs001234.c1"),
         ("study_subject_id", "phs001234.v3_ABC")]
        "study_with_consent" = some ("phs001234" ++ ".c" ++ "1")) ∧
    (pyDictGet
        [("submitted_subject_id", "ABC"), ("sample_use", "[]"),
         ("sra_data_details", ""), ("study_accession", "phs001234.v3.p1"),
         ("study_subject_id", "phs001234.v3_ABC")]
        "study_accession_with_consent" = none ∧
     pyDictGet
        [("submitted_subject_id", "ABC"), ("sample_use", "[]"),
         ("sra_data_details", ""), ("study_accession", "phs001234.v3.p1"),
         ("study_subject_id", "phs001234.v3_ABC")]
        "study_with_consent" = none) := by
  constructor
  · exact (C3_consent_fields "phs001234.v3.p1" "phs001234" "v3" "p1"
      ⟨[("submitted_subject_id", "ABC"), ("consent_code", "1")], [], []⟩ false
      [("submitted_subject_id", "ABC"), ("consent_code", "1"),
       ("sample_use", "[]"), ("sra_data_details", ""),
       ("study_accession", "phs001234.v3.p1"),
       ("study_accession_with_consent", "phs001234.v3.p1.c1"),
       ("study_with_consent", "phs001234.c1"),
       ("study_subject_id", "phs001234.v3_ABC")]
      (by decide) (by decide) (by decide)).1 "1" (by decide)
  · exact (C3_consent_fields "phs001234.v3.p1" "phs001234" "v3" "p1"
      ⟨[("submitted_subject_id", "ABC")], [], []⟩ false
      [("submitted_subject_id", "ABC"), ("sample_use", "[]"),
       ("sra_data_details", ""), ("study_accession", "phs001234.v3.p1"),
       ("study_subject_id", "phs001234.v3_ABC")]
      (by decide) (by decide) (by decide)).2 (by decide)

/-! ## Claim C9: flattening and the parsed sample record -/

/-- Counterexample to C9 as stated: in the source, `sample_dict` aliases
`sample.attrib`, so flattening stores the derived fields into the
element's attribute dictionary — the sample after flattening is not the
sample before it. -/
theorem C9_counterexample :
    flattenPostSample "phs000123.v2.p1"
      ⟨[("submitted_subject_id", "ABC")], ["WGS"], [[("runs", "3")]]⟩ false ≠
    some ⟨[("submitted_subject_id", "ABC")], ["WGS"], [[("runs", "3")]]⟩ := by
  decide

/-- C9 (amended): flattening mutates the sample's attribute mapping in
place — after a successful run the element's attribute dictionary is
exactly the returned flat dict — while the nested usage-tag and
statistic-block lists are left unchanged, and (for a sample whose
attribute keys are source attribute names, each held once) every
original attribute keeps its value under the mutation. -/
theorem C9_flatten_mutates_attrib_only (acc : String) (s : XmlSample)
    (e : Bool) (d : List (String × String))
    (hd : get_sample_dict_from_xml_sample acc s e = some d) :
    flattenPostSample acc s e =
      some { attrib := d, uses := s.uses, sraStats := s.sraStats } ∧
    ((s.attrib.map Prod.fst).Nodup →
      (∀ p ∈ s.attrib, p.1 ∈ sourceAttributeNames) →
      ∀ p ∈ s.attrib, pyDictGet d p.1 = some p.2) := by
  constructor
  · unfold flattenPostSample
    rw [hd]
    rfl
  · intro hnd hkeys p hp
    obtain ⟨sra, ssid, hsra, hssid, hdeq⟩ :=
      get_sample_dict_some_inv acc s e d hd
    subst hdeq
    have hmemk := hkeys p hp
    have h1 : p.1 ≠ "study_subject_id" := by
      intro he
      exact absurd (he ▸ hmemk) (by decide)
    have h2 : p.1 ≠ "study_with_consent" := by
      intro he
      exact absurd (he ▸ hmemk) (by decide)
    have h3 : p.1 ≠ "study_accession_with_consent" := by
      intro he
      exact absurd (he ▸ hmemk) (by decide)
    have h4 : p.1 ≠ "study_accession" := by
      intro he
      exact absurd (he ▸ hmemk) (by decide)
    have h5 : p.1 ≠ "sra_data_details" := by
      intro he
      exact absurd (he ▸ hmemk) (by decide)
    have h6 : p.1 ≠ "sample_use" := by
      intro he
      exact absurd (he ▸ hmemk) (by decide)
    rw [pyDictGet_set_ne _ _ _ _ h1]
    unfold sampleDictD4
    split
    · rw [pyDictGet_set_ne _ _ _ _ h2, pyDictGet_set_ne _ _ _ _ h3,
        d3_get_other s acc sra _ h4 h5 h6]
      exact pyDictGet_of_nodup s.attrib p hnd hp
    · rw [d3_get_other s acc sra _ h4 h5 h6]
      exact pyDictGet_of_nodup s.attrib p hnd hp

/-- Witness for the amended C9 at a concrete sample. -/
theorem C9_flatten_mutates_attrib_only_witness :
    flattenPostSample "phs000123.v2.p1"
      ⟨[("submitted_subject_id", "ABC")], ["WGS"], [[("runs", "3")]]⟩ false =
      some { attrib :=
              [("submitted_subject_id", "ABC"),
               ("sample_use", "[\"WGS\"]"),
               ("sra_data_details", "(runs:3) "),
               ("study_accession", "phs000123.v2.p1"),
               ("study_subject_id", "phs000123.v2_ABC")],
             uses := ["WGS"], sraStats := [[("runs", "3")]] } ∧
    pyDictGet
      [("submitted_subject_id", "ABC"),
       ("sample_use", "[\"WGS\"]"),
       ("sra_data_details", "(runs:3) "),
       ("study_accession", "phs000123.v2.p1"),
       ("study_subject_id", "phs000123.v2_ABC")] "submitted_subject_id" =
      some "ABC" := by
  constructor
  · exact (C9_flatten_mutates_attrib_only "phs000123.v2.p1"
      ⟨[("submitted_subject_id", "ABC")], ["WGS"], [[("runs", "3")]]⟩ false
      [("submitted_subject_id", "ABC"),
       ("sample_use", "[\"WGS\"]"),
       ("sra_data_details", "(runs:3) "),
       ("study_accession", "phs000123.v2.p1"),
       ("study_subject_id", "phs000123.v2_ABC")] (by decide)).1
  · exact (C9_flatten_mutates_attrib_only "phs000123.v2.p1"
      ⟨[("submitted_subject_id", "ABC")], ["WGS"], [[("runs", "3")]]⟩ false
      [("submitted_subject_id", "ABC"),
       ("sample_use", "[\"WGS\"]"),
       ("sra_data_details", "(runs:3) "),
       ("study_accession", "phs000123.v2.p1"),
       ("study_subject_id", "phs000123.v2_ABC")] (by decide)).2
      (by decide) (by decide) ("submitted_subject_id", "ABC") (by decide)

/-! ## Claim C6: duplicate suppression in the driver -/

theorem scrapeLoop_seen_invariant (fetch : String → Option StudyDoc)
    (e : Bool) :
    ∀ (fuel : Nat) (queue seen : List String)
      (out : List (String × List (List String)))
      (seen' : List String) (out' : List (String × List (List String))),
      seen = out.map Prod.fst → seen.Nodup →
      scrapeLoop fetch e fuel queue seen out = some (.ok seen' out') →
      seen' = out'.map Prod.fst ∧ seen'.Nodup := by
  intro fuel
  induction fuel with
  | zero =>
    intro queue seen out seen' out' h1 h2 h3
    exact absurd h3 (by simp [scrapeLoop])
  | succ f ih =>
    intro queue seen out seen' out' h1 h2 h3
    cases queue with
    | nil =>
      have h4 : ScrapeOut.ok seen out = ScrapeOut.ok seen' out' := by
        simpa [scrapeLoop] using h3
      cases h4
      exact ⟨h1, h2⟩
    | cons a rest =>
      simp only [scrapeLoop] at h3
      split at h3
      · simp at h3
      · rename_i doc heq
        split at h3
        · split at h3
          · simp at h3
          · exact ih rest seen out seen' out' h1 h2 h3
          · exact ih _ seen out seen' out' h1 h2 h3
        · split at h3
          · exact ih rest seen out seen' out' h1 h2 h3
          · rename_i hemp hseen
            have hnotmem : doc.accession ∉ seen := by
              intro hm
              exact hseen (List.elem_iff.mpr hm)
            apply ih rest (seen ++ [doc.accession])
              (out ++ [(doc.accession,
                write_sample_rows_for_study doc.accession doc.samples e)])
              seen' out' ?_ ?_ h3
            · rw [h1]
              simp
            · refine List.Nodup.append h2 (List.nodup_singleton _) ?_
              intro x hx hx1
              rw [List.mem_singleton] at hx1
              exact hnotmem (hx1 ▸ hx)

/-- C6: in every completed run, each resolved study accession has its
rows written exactly once — the written batches are keyed by the seen
list, which never repeats an accession — and a dequeued study that
resolves to an already-seen accession is skipped without writing. -/
theorem C6_duplicate_suppression (fetch : String → Option StudyDoc)
    (e : Bool) :
    (∀ (fuel : Nat) (worklist seen' : List String)
       (out' : List (String × List (List String))),
      scrapeLoop fetch e fuel worklist [] [] = some (.ok seen' out') →
      out'.map Prod.fst = seen' ∧ seen'.Nodup) ∧
    (∀ (fuel : Nat) (a : String) (rest seen : List String)
       (out : List (String × List (List String))) (doc : StudyDoc),
      fetch a = some doc → doc.samples.isEmpty = false →
      seen.contains doc.accession = true →
      scrapeLoop fetch e (fuel + 1) (a :: rest) seen out =
        scrapeLoop fetch e fuel rest seen out) := by
  constructor
  · intro fuel worklist seen' out' h
    obtain ⟨h1, h2⟩ := scrapeLoop_seen_invariant fetch e fuel worklist [] []
      seen' out' rfl List.nodup_nil h
    exact ⟨h1.symm, h2⟩
  · intro fuel a rest seen out doc hf hemp hseen
    show (match fetch a with
      | none => some ScrapeOut.crash
      | some doc =>
        if doc.samples.isEmpty then
          match _get_previous_version_of_study_accession doc.accession with
          | none => some ScrapeOut.crash
          | some none => scrapeLoop fetch e fuel rest seen out
          | some (some prev) =>
            scrapeLoop fetch e fuel (rest ++ [prev]) seen out
        else if seen.contains doc.accession then
          scrapeLoop fetch e fuel rest seen out
        else
          scrapeLoop fetch e fuel rest (seen ++ [doc.accession])
            (out ++ [(doc.accession,
              write_sample_rows_for_study doc.accession doc.samples e)])) =
      scrapeLoop fetch e fuel rest seen out
    rw [hf]
    show (if doc.samples.isEmpty then _ else _) = _
    rw [hemp]
    show (if seen.contains doc.accession then
        scrapeLoop fetch e fuel rest seen out
      else _) = _
    rw [hseen]
    show scrapeLoop fetch e fuel rest seen out = _
    rfl

/-- Witness for C6: the same accession requested twice, against a stub
registry that always resolves to `phs1.v1.p1` with one sample; the run
completes with that accession written exactly once, and the duplicate
dequeue writes nothing. -/
theorem C6_duplicate_suppression_witness :
    ([("phs1.v1.p1",
       [["", "", "", "", "A", "", "", "", "", "", "", "[]", "", "", "",
         "phs1.v1.p1", "", "", "phs1.v1_A"]])].map Prod.fst =
      ["phs1.v1.p1"] ∧ (["phs1.v1.p1"] : List String).Nodup) ∧
    scrapeLoop constSampleFetch false 2 ["phs1.v1.p1"] ["phs1.v1.p1"]
      [("phs1.v1.p1",
        [["", "", "", "", "A", "", "", "", "", "", "", "[]", "", "", "",
          "phs1.v1.p1", "", "", "phs1.v1_A"]])] =
      scrapeLoop constSampleFetch false 1 [] ["phs1.v1.p1"]
        [("phs1.v1.p1",
          [["", "", "", "", "A", "", "", "", "", "", "", "[]", "", "", "",
            "phs1.v1.p1", "", "", "phs1.v1_A"]])] := by
  constructor
  · exact (C6_duplicate_suppression constSampleFetch false).1 3
      ["phs1.v1.p1", "phs1.v1.p1"]
      ["phs1.v1.p1"]
      [("phs1.v1.p1",
        [["", "", "", "", "A", "", "", "", "", "", "", "[]", "", "", "",
          "phs1.v1.p1", "", "", "phs1.v1_A"]])]
      (by decide)
  · exact (C6_duplicate_suppression constSampleFetch false).2 1 "phs1.v1.p1"
      [] ["phs1.v1.p1"]
      [("phs1.v1.p1",
        [["", "", "", "", "A", "", "", "", "", "", "", "[]", "", "", "",
          "phs1.v1.p1", "", "", "phs1.v1_A"]])]
      ⟨"phs1.v1.p1", [⟨[("submitted_subject_id", "A")], [], []⟩]⟩
      (by decide) (by decide) (by decide)

/-! ## Claim C7: termination of the fallback walk and the driver loop -/

theorem pySplit_data_eq (s : String) (l : List String) (h : pySplit s = l) :
    splitDotChars s.data = l.map String.data := by
  have h2 := congrArg (List.map String.data) h
  have h3 : (String.data ∘ fun x : List Char => (⟨x⟩ : String)) = id := by
    funext x
    rfl
  simpa [pySplit, List.map_map, h3, List.map_id] using h2

theorem not_dot_mem_pyStrNat (n : Nat) : '.' ∉ (pyStrNat n).data := by
  intro hmem
  have hdig : isDigitCh '.' = true :=
    isDigit_of_mem_natToCharsAux (n + 1) n '.'
      (by simpa [pyStrNat, string_data_mk] using hmem)
  exact absurd hdig (by decide)

theorem not_dot_mem_pyStrInt (i : Int) : '.' ∉ (pyStrInt i).data := by
  unfold pyStrInt
  split
  · rw [String.data_append]
    intro hmem
    rcases List.mem_append.1 hmem with h | h
    · rw [List.mem_singleton] at h
      cases h
    · exact not_dot_mem_pyStrNat _ h
  · exact not_dot_mem_pyStrNat _

theorem pySplit_joinDot₃ (p0 p1 p2 : String)
    (h0 : '.' ∉ p0.data) (h1 : '.' ∉ p1.data) (h2 : '.' ∉ p2.data) :
    pySplit (joinDot [p0, p1, p2]) = [p0, p1, p2] := by
  unfold pySplit joinDot
  rw [string_data_mk]
  show (splitDotChars
    (joinSepChars ['.'] [p0.data, p1.data, p2.data])).map _ = _
  rw [splitDotChars_join₃ _ _ _ h0 h1 h2]
  rfl

/-- When the resolver returns a fallback accession, the requested
accession split into at least three segments, its version parsed to
some `v ≠ 1`, and the fallback is the first and third segments rejoined
around `v<v-1>` (so its version parses to `v - 1`). -/
theorem resolver_version_decrease (a prev : String)
    (h : _get_previous_version_of_study_accession a = some (some prev)) :
    ∃ (p0 p1 p2 : String) (rrest : List String) (v : Int),
      pySplit a = p0 :: p1 :: p2 :: rrest ∧
      parsedVersion a = some v ∧ v ≠ 1 ∧
      pySplit prev = [p0, "v" ++ pyStrInt (v - 1), p2] ∧
      parsedVersion prev = some (v - 1) := by
  unfold _get_previous_version_of_study_accession at h
  split at h
  · rename_i p0 p1 rest heq
    split at h
    · cases h
    · rename_i v hint
      split at h
      · simp at h
      · rename_i hvne
        split at h
        · cases h
        · rename_i p2 rrest
          have hprev : prev = joinDot [p0, "v" ++ pyStrInt (v - 1), p2] := by
            have h2 := Option.some_inj.1 h
            exact (Option.some_inj.1 h2).symm
          have hsplitdata := pySplit_data_eq a _ heq
          have h0 : '.' ∉ p0.data := by
            apply not_dot_mem_of_mem_splitDotChars a.data
            rw [hsplitdata]
            simp
          have hvseg : ("v" ++ pyStrInt (v - 1)).data =
              'v' :: (pyStrInt (v - 1)).data := by
            rw [String.data_append]
            rfl
          have h1 : '.' ∉ ("v" ++ pyStrInt (v - 1)).data := by
            rw [hvseg]
            intro hmem
            rcases List.mem_cons.1 hmem with hh | hh
            · cases hh
            · exact not_dot_mem_pyStrInt _ hh
          have h2 : '.' ∉ p2.data := by
            apply not_dot_mem_of_mem_splitDotChars a.data
            rw [hsplitdata]
            simp
          have hps : pySplit prev = [p0, "v" ++ pyStrInt (v - 1), p2] := by
            rw [hprev]
            exact pySplit_joinDot₃ _ _ _ h0 h1 h2
          refine ⟨p0, p1, p2, rrest, v, heq, ?_, hvne, hps, ?_⟩
          · unfold parsedVersion
            rw [heq]
            exact hint
          · unfold parsedVersion
            rw [hps]
            show pyInt ⟨("v" ++ pyStrInt (v - 1)).data.drop 1⟩ = some (v - 1)
            have hdrop : (⟨("v" ++ pyStrInt (v - 1)).data.drop 1⟩ : String) =
                pyStrInt (v - 1) := by
              rw [hvseg]
              rfl
            rw [hdrop]
            exact pyInt_pyStrInt (v - 1)
  · cases h

theorem scrapeLoop_cons_eq (fetch : String → Option StudyDoc) (e : Bool)
    (fuel : Nat) (a : String) (rest seen : List String)
    (out : List (String × List (List String))) :
    scrapeLoop fetch e (fuel + 1) (a :: rest) seen out =
      match fetch a with
      | none => some .crash
      | some doc =>
        if doc.samples.isEmpty then
          match _get_previous_version_of_study_accession doc.accession with
          | none => some .crash
          | some none => scrapeLoop fetch e fuel rest seen out
          | some (some prev) =>
            scrapeLoop fetch e fuel (rest ++ [prev]) seen out
        else if seen.contains doc.accession then
          scrapeLoop fetch e fuel rest seen out
        else
          scrapeLoop fetch e fuel rest (seen ++ [doc.accession])
            (out ++ [(doc.accession,
              write_sample_rows_for_study doc.accession doc.samples e)]) :=
  rfl

theorem queueMeasure_cons (a : String) (rest : List String) :
    queueMeasure (a :: rest) = verNat a + 1 + queueMeasure rest := by
  simp [queueMeasure]

theorem scrapeLoop_step_crash_fetch (fetch : String → Option StudyDoc)
    (e : Bool) (fuel : Nat) (a : String) (rest seen : List String)
    (out : List (String × List (List String))) (hf : fetch a = none) :
    scrapeLoop fetch e (fuel + 1) (a :: rest) seen out = some .crash := by
  rw [scrapeLoop_cons_eq, hf]

theorem scrapeLoop_step_empty_crash (fetch : String → Option StudyDoc)
    (e : Bool) (fuel : Nat) (a : String) (rest seen : List String)
    (out : List (String × List (List String))) (doc : StudyDoc)
    (hf : fetch a = some doc) (hemp : doc.samples.isEmpty = true)
    (hres : _get_previous_version_of_study_accession doc.accession = none) :
    scrapeLoop fetch e (fuel + 1) (a :: rest) seen out = some .crash := by
  rw [scrapeLoop_cons_eq, hf]
  show (if doc.samples.isEmpty then _ else _) = _
  rw [hemp]
  show (match _get_previous_version_of_study_accession doc.accession with
    | none => some ScrapeOut.crash
    | some none => scrapeLoop fetch e fuel rest seen out
    | some (some prev) =>
      scrapeLoop fetch e fuel (rest ++ [prev]) seen out) = _
  rw [hres]

theorem scrapeLoop_step_empty_terminal (fetch : String → Option StudyDoc)
    (e : Bool) (fuel : Nat) (a : String) (rest seen : List String)
    (out : List (String × List (List String))) (doc : StudyDoc)
    (hf : fetch a = some doc) (hemp : doc.samples.isEmpty = true)
    (hres : _get_previous_version_of_study_accession doc.accession =
      some none) :
    scrapeLoop fetch e (fuel + 1) (a :: rest) seen out =
      scrapeLoop fetch e fuel rest seen out := by
  rw [scrapeLoop_cons_eq, hf]
  show (if doc.samples.isEmpty then _ else _) = _
  rw [hemp]
  show (match _get_previous_version_of_study_accession doc.accession with
    | none => some ScrapeOut.crash
    | some none => scrapeLoop fetch e fuel rest seen out
    | some (some prev) =>
      scrapeLoop fetch e fuel (rest ++ [prev]) seen out) = _
  rw [hres]

theorem scrapeLoop_step_empty_prev (fetch : String → Option StudyDoc)
    (e : Bool) (fuel : Nat) (a prev : String) (rest seen : List String)
    (out : List (String × List (List String))) (doc : StudyDoc)
    (hf : fetch a = some doc) (hemp : doc.samples.isEmpty = true)
    (hres : _get_previous_version_of_study_accession doc.accession =
      some (some prev)) :
    scrapeLoop fetch e (fuel + 1) (a :: rest) seen out =
      scrapeLoop fetch e fuel (rest ++ [prev]) seen out := by
  rw [scrapeLoop_cons_eq, hf]
  show (if doc.samples.isEmpty then _ else _) = _
  rw [hemp]
  show (match _get_previous_version_of_study_accession doc.accession with
    | none => some ScrapeOut.crash
    | some none => scrapeLoop fetch e fuel rest seen out
    | some (some prev) =>
      scrapeLoop fetch e fuel (rest ++ [prev]) seen out) = _
  rw [hres]

theorem scrapeLoop_step_seen (fetch : String → Option StudyDoc) (e : Bool)
    (fuel : Nat) (a : String) (rest seen : List String)
    (out : List (String × List (List String))) (doc : StudyDoc)
    (hf : fetch a = some doc) (hemp : doc.samples.isEmpty = false)
    (hseen : seen.contains doc.accession = true) :
    scrapeLoop fetch e (fuel + 1) (a :: rest) seen out =
      scrapeLoop fetch e fuel rest seen out := by
  rw [scrapeLoop_cons_eq, hf]
  show (if doc.samples.isEmpty then _ else _) = _
  rw [hemp]
  show (if seen.contains doc.accession then
      scrapeLoop fetch e fuel rest seen out
    else _) = _
  rw [hseen]
  rfl

theorem scrapeLoop_step_write (fetch : String → Option StudyDoc) (e : Bool)
    (fuel : Nat) (a : String) (rest seen : List String)
    (out : List (String × List (List String))) (doc : StudyDoc)
    (hf : fetch a = some doc) (hemp : doc.samples.isEmpty = false)
    (hseen : seen.contains doc.accession = false) :
    scrapeLoop fetch e (fuel + 1) (a :: rest) seen out =
      scrapeLoop fetch e fuel rest (seen ++ [doc.accession])
        (out ++ [(doc.accession,
          write_sample_rows_for_study doc.accession doc.samples e)]) := by
  rw [scrapeLoop_cons_eq, hf]
  show (if doc.samples.isEmpty then _ else _) = _
  rw [hemp]
  show (if seen.contains doc.accession then
      scrapeLoop fetch e fuel rest seen out
    else _) = _
  rw [hseen]
  rfl

theorem queueMeasure_append_one (rest : List String) (b : String) :
    queueMeasure (rest ++ [b]) = queueMeasure rest + (verNat b + 1) := by
  simp [queueMeasure]

/-- An accession whose second dot-segment is one character followed by
the decimal digits of `k` has version `k`. -/
theorem parsedVersion_of_digits (a p0 p1 : String) (qrest : List String)
    (k : Nat) (hsp : pySplit a = p0 :: p1 :: qrest)
    (hd : p1.data.drop 1 = (pyStrNat k).data) :
    parsedVersion a = some (k : Int) := by
  unfold parsedVersion
  rw [hsp]
  show pyInt ⟨p1.data.drop 1⟩ = some (k : Int)
  have hq : (⟨p1.data.drop 1⟩ : String) = pyStrNat k := by
    rw [hd]
  rw [hq]
  exact pyInt_pyStrNat k

/-- Strong-induction core for driver termination: when the registry
echoes the requested accession and every queued accession's version
segment spells a positive integer in decimal, some amount of fuel
finishes the loop. -/
theorem scrape_terminates_aux (fetch : String → Option StudyDoc) (e : Bool)
    (hecho : ∀ a doc, fetch a = some doc → doc.accession = a) :
    ∀ (n : Nat) (queue seen : List String)
      (out : List (String × List (List String))),
      queueMeasure queue ≤ n →
      (∀ a ∈ queue, ∀ (p0 p1 : String) (qrest : List String),
        pySplit a = p0 :: p1 :: qrest →
        ∃ k : Nat, 1 ≤ k ∧ p1.data.drop 1 = (pyStrNat k).data) →
      ∃ fuel r, scrapeLoop fetch e fuel queue seen out = some r := by
  intro n
  induction n using Nat.strong_induction_on with
  | _ n ih =>
    intro queue seen out hμ hver
    cases queue with
    | nil => exact ⟨1, .ok seen out, rfl⟩
    | cons a rest =>
      rw [queueMeasure_cons] at hμ
      cases hf : fetch a with
      | none =>
        exact ⟨1, .crash,
          scrapeLoop_step_crash_fetch fetch e 0 a rest seen out hf⟩
      | some doc =>
        have hacc : doc.accession = a := hecho a doc hf
        have hvertail : ∀ b ∈ rest, ∀ (p0 p1 : String) (qrest : List String),
            pySplit b = p0 :: p1 :: qrest →
            ∃ k : Nat, 1 ≤ k ∧ p1.data.drop 1 = (pyStrNat k).data :=
          fun b hb => hver b (List.mem_cons_of_mem a hb)
        by_cases hemp : doc.samples.isEmpty = true
        · cases hres : _get_previous_version_of_study_accession
              doc.accession with
          | none =>
            exact ⟨1, .crash,
              scrapeLoop_step_empty_crash fetch e 0 a rest seen out doc
                hf hemp hres⟩
          | some o =>
            cases o with
            | none =>
              have hrest : queueMeasure rest < n := by omega
              obtain ⟨fuel, r, hrun⟩ := ih (queueMeasure rest) hrest rest
                seen out le_rfl hvertail
              refine ⟨fuel + 1, r, ?_⟩
              rw [scrapeLoop_step_empty_terminal fetch e fuel a rest seen out
                doc hf hemp hres]
              exact hrun
            | some prev =>
              have hres' : _get_previous_version_of_study_accession a =
                  some (some prev) := by rw [← hacc]; exact hres
              obtain ⟨p0, p1, p2, rrest, v, hsp, hva, hv1, hspprev, hvprev⟩ :=
                resolver_version_decrease a prev hres'
              obtain ⟨k, hk1, hkd⟩ :=
                hver a (List.mem_cons_self a rest) p0 p1 (p2 :: rrest) hsp
              have hpk : parsedVersion a = some (k : Int) :=
                parsedVersion_of_digits a p0 p1 (p2 :: rrest) k hsp hkd
              have hvk : v = (k : Int) := by
                rw [hva] at hpk
                exact Option.some_inj.1 hpk
              have hv2 : 2 ≤ v := by
                have : 1 ≤ v := by omega
                rcases lt_or_eq_of_le this with h | h
                · omega
                · exact absurd h.symm hv1
              have hverNa : verNat a = v.toNat := by
                unfold verNat
                rw [hva]
              have hverNp : verNat prev = (v - 1).toNat := by
                unfold verNat
                rw [hvprev]
              have hdec : verNat prev < verNat a := by
                rw [hverNa, hverNp]
                omega
              have hμ' : queueMeasure (rest ++ [prev]) <
                  verNat a + 1 + queueMeasure rest := by
                rw [queueMeasure_append_one]
                omega
              have hlt : queueMeasure (rest ++ [prev]) < n := by omega
              have hver' : ∀ b ∈ rest ++ [prev],
                  ∀ (q0 q1 : String) (qrest : List String),
                  pySplit b = q0 :: q1 :: qrest →
                  ∃ k' : Nat, 1 ≤ k' ∧ q1.data.drop 1 = (pyStrNat k').data := by
                intro b hb q0 q1 qrest hq
                rcases List.mem_append.1 hb with h | h
                · exact hvertail b h q0 q1 qrest hq
                · rw [List.mem_singleton] at h
                  subst h
                  rw [hspprev] at hq
                  have hq1 : q1 = "v" ++ pyStrInt (v - 1) := by
                    simp only [List.cons.injEq] at hq
                    exact hq.2.1.symm
                  refine ⟨(v - 1).toNat, by omega, ?_⟩
                  rw [hq1, String.data_append]
                  show (pyStrInt (v - 1)).data = _
                  rw [pyStrInt_coe_nonneg (v - 1) (by omega)]
              obtain ⟨fuel, r, hrun⟩ := ih (queueMeasure (rest ++ [prev]))
                hlt (rest ++ [prev]) seen out le_rfl hver'
              refine ⟨fuel + 1, r, ?_⟩
              rw [scrapeLoop_step_empty_prev fetch e fuel a prev rest seen out
                doc hf hemp hres]
              exact hrun
        · have hrest : queueMeasure rest < n := by omega
          have hemp' : doc.samples.isEmpty = false :=
            Bool.eq_false_iff.mpr hemp
          by_cases hseen : seen.contains doc.accession = true
          · obtain ⟨fuel, r, hrun⟩ := ih (queueMeasure rest) hrest rest
              seen out le_rfl hvertail
            refine ⟨fuel + 1, r, ?_⟩
            rw [scrapeLoop_step_seen fetch e fuel a rest seen out doc
              hf hemp' hseen]
            exact hrun
          · have hseen' : seen.contains doc.accession = false :=
              Bool.eq_false_iff.mpr hseen
            obtain ⟨fuel, r, hrun⟩ := ih (queueMeasure rest) hrest rest
              (seen ++ [doc.accession])
              (out ++ [(doc.accession,
                write_sample_rows_for_study doc.accession doc.samples e)])
              le_rfl hvertail
            refine ⟨fuel + 1, r, ?_⟩
            rw [scrapeLoop_step_write fetch e fuel a rest seen out doc
              hf hemp' hseen']
            exact hrun

/-- Counterexample to C7 as stated: against a registry that answers
every request with the same sampleless `phs1.v2.p1` document, the
driver's loop never finishes — each iteration re-enqueues `phs1.v1.p1`.
(The fallback accession is computed from the resolved accession of the
response, which need not be the dequeued one.) -/
theorem C7_counterexample :
    ¬ scrapeTerminates loopingFetch false ["phs1.v2.p1"] := by
  have hres : _get_previous_version_of_study_accession "phs1.v2.p1" =
      some (some "phs1.v1.p1") := by decide
  have hstep : ∀ (fuel : Nat) (a : String) (seen : List String)
      (out : List (String × List (List String))),
      scrapeLoop loopingFetch false fuel [a] seen out = none := by
    intro fuel
    induction fuel with
    | zero => intro a seen out; rfl
    | succ f ihf =>
      intro a seen out
      have h1 : scrapeLoop loopingFetch false (f + 1) [a] seen out =
          scrapeLoop loopingFetch false f ["phs1.v1.p1"] seen out := by
        simp [scrapeLoop_cons_eq, loopingFetch, hres]
      rw [h1]
      exact ihf "phs1.v1.p1" seen out
  rintro ⟨fuel, r, h⟩
  rw [hstep fuel "phs1.v2.p1" [] []] at h
  cases h

/-- C7 (amended: assuming each response's resolved accession is the
requested one, and each input accession that has at least two
dot-segments follows the accession grammar — its version segment past
the leading character is the decimal spelling of a positive integer):
every fallback step strictly decreases the version number, so the walk
is bounded and the driver's loop finishes for every finite input
list. -/
theorem C7_termination (fetch : String → Option StudyDoc) (e : Bool)
    (worklist : List String)
    (hecho : ∀ a doc, fetch a = some doc → doc.accession = a)
    (hver : ∀ a ∈ worklist, ∀ (p0 p1 : String) (qrest : List String),
      pySplit a = p0 :: p1 :: qrest →
      ∃ k : Nat, 1 ≤ k ∧ p1.data.drop 1 = (pyStrNat k).data) :
    scrapeTerminates fetch e worklist :=
  scrape_terminates_aux fetch e hecho (queueMeasure worklist) worklist [] []
    le_rfl hver

/-- Witness for C7: against an echoing registry with no samples, the
walk `phs1.v2.p1 → phs1.v1.p1 → no fallback` finishes. -/
theorem C7_termination_witness :
    scrapeTerminates echoEmptyFetch false ["phs1.v2.p1"] := by
  apply C7_termination
  · intro a doc h
    cases h
    rfl
  · intro a ha p0 p1 qrest hsp
    rw [List.mem_singleton] at ha
    subst ha
    have h2 : pySplit "phs1.v2.p1" = ["phs1", "v2", "p1"] := by decide
    rw [h2] at hsp
    have hq : p1 = "v2" := by
      simp only [List.cons.injEq] at hsp
      exact hsp.2.1.symm
    subst hq
    exact ⟨2, by decide, by decide⟩

/-! ## Claim C8: the expanded SRA encoding -/

theorem noQQPair_of_left {a b : Char} (h : a ≠ '"') : noQQPair a b :=
  fun hq => h hq.1

theorem noQQPair_of_right {a b : Char} (h : b ≠ '"') : noQQPair a b :=
  fun hq => h hq.2

theorem replaceQQ_of_chain :
    ∀ l : List Char, List.Chain' noQQPair l → replaceQQ l = l
  | [], _ => rfl
  | [_], _ => rfl
  | a :: b :: rest, h => by
    rw [List.chain'_cons] at h
    unfold replaceQQ
    rw [if_neg h.1]
    rw [replaceQQ_of_chain (b :: rest) h.2]

theorem chain_of_quote_not_mem (l : List Char) (h : '"' ∉ l) :
    List.Chain' noQQPair l := by
  induction l with
  | nil => exact List.chain'_nil
  | cons c rest ih =>
    rw [List.chain'_cons']
    constructor
    · intro y _
      apply noQQPair_of_left
      intro he
      exact h (he ▸ List.mem_cons_self c rest)
    · exact ih (fun hm => h (List.mem_cons_of_mem c hm))

theorem quote_not_mem_hex4 (n : Nat) : '"' ∉ hex4 n := by
  have hne : ∀ m, m < 16 → hexDigitCh m ≠ '"' := by decide
  unfold hex4
  intro hmem
  simp only [List.mem_cons, List.not_mem_nil, or_false] at hmem
  rcases hmem with h | h | h | h
  · exact hne _ (Nat.mod_lt _ (by omega)) h.symm
  · exact hne _ (Nat.mod_lt _ (by omega)) h.symm
  · exact hne _ (Nat.mod_lt _ (by omega)) h.symm
  · exact hne _ (Nat.mod_lt _ (by omega)) h.symm

theorem quote_not_mem_uEscape (n : Nat) :
    '"' ∉ '\\' :: 'u' :: hex4 n := by
  intro hmem
  simp only [List.mem_cons] at hmem
  rcases hmem with h | h | h
  · exact absurd h (by decide)
  · exact absurd h (by decide)
  · exact quote_not_mem_hex4 _ h

theorem quote_not_mem_jsonEscapeChar (c : Char) (hc : c ≠ '"') :
    '"' ∉ jsonEscapeChar c := by
  unfold jsonEscapeChar
  rw [if_neg hc]
  by_cases h2 : c = '\\'
  · rw [if_pos h2]; decide
  rw [if_neg h2]
  by_cases h3 : c = '\n'
  · rw [if_pos h3]; decide
  rw [if_neg h3]
  by_cases h4 : c = '\t'
  · rw [if_pos h4]; decide
  rw [if_neg h4]
  by_cases h5 : c = '\r'
  · rw [if_pos h5]; decide
  rw [if_neg h5]
  by_cases h6 : c = '\x08'
  · rw [if_pos h6]; decide
  rw [if_neg h6]
  by_cases h7 : c = '\x0c'
  · rw [if_pos h7]; decide
  rw [if_neg h7]
  by_cases h8 : c.toNat < 32
  · rw [if_pos h8]; exact quote_not_mem_uEscape _
  rw [if_neg h8]
  by_cases h9 : c.toNat ≤ 126
  · rw [if_pos h9]
    intro hmem
    rw [List.mem_singleton] at hmem
    exact hc hmem.symm
  rw [if_neg h9]
  by_cases h10 : c.toNat < 65536
  · rw [if_pos h10]; exact quote_not_mem_uEscape _
  rw [if_neg h10]
  intro hmem
  rcases List.mem_append.1 hmem with h | h
  · exact quote_not_mem_uEscape _ h
  · exact quote_not_mem_uEscape _ h

theorem jsonEscapeChar_ne_nil (c : Char) : jsonEscapeChar c ≠ [] := by
  unfold jsonEscapeChar
  by_cases h1 : c = '"'
  · rw [if_pos h1]; simp
  rw [if_neg h1]
  by_cases h2 : c = '\\'
  · rw [if_pos h2]; simp
  rw [if_neg h2]
  by_cases h3 : c = '\n'
  · rw [if_pos h3]; simp
  rw [if_neg h3]
  by_cases h4 : c = '\t'
  · rw [if_pos h4]; simp
  rw [if_neg h4]
  by_cases h5 : c = '\r'
  · rw [if_pos h5]; simp
  rw [if_neg h5]
  by_cases h6 : c = '\x08'
  · rw [if_pos h6]; simp
  rw [if_neg h6]
  by_cases h7 : c = '\x0c'
  · rw [if_pos h7]; simp
  rw [if_neg h7]
  by_cases h8 : c.toNat < 32
  · rw [if_pos h8]; simp
  rw [if_neg h8]
  by_cases h9 : c.toNat ≤ 126
  · rw [if_pos h9]; simp
  rw [if_neg h9]
  by_cases h10 : c.toNat < 65536
  · rw [if_pos h10]; simp
  rw [if_neg h10]
  simp

theorem quote_not_mem_jsonEscape (l : List Char) (h : '"' ∉ l) :
    '"' ∉ jsonEscape l := by
  unfold jsonEscape
  intro hmem
  rw [List.mem_flatten] at hmem
  obtain ⟨chunk, hchunk, hq⟩ := hmem
  rw [List.mem_map] at hchunk
  obtain ⟨c, hcl, hce⟩ := hchunk
  have hcq : c ≠ '"' := fun he => h (he ▸ hcl)
  exact quote_not_mem_jsonEscapeChar c hcq (hce ▸ hq)

theorem jsonEscape_ne_nil (l : List Char) (h : l ≠ []) :
    jsonEscape l ≠ [] := by
  cases l with
  | nil => exact absurd rfl h
  | cons c rest =>
    unfold jsonEscape
    rw [List.map_cons, List.flatten_cons]
    intro hnil
    rcases List.append_eq_nil.1 hnil with ⟨h1, _⟩
    exact jsonEscapeChar_ne_nil c h1

theorem getLast?_cons_of_ne_nil {α : Type} (a : α) (l : List α)
    (h : l ≠ []) : (a :: l).getLast? = l.getLast? := by
  cases l with
  | nil => exact absurd rfl h
  | cons b t => exact List.getLast?_cons_cons

theorem string_ne_nil_data (s : String) (h : s ≠ "") : s.data ≠ [] := by
  intro hd
  exact h (String.ext (hd.trans string_data_empty.symm))

theorem chain_jsonEntryChars (kv : String × String)
    (hk1 : kv.1 ≠ "") (hk2 : '"' ∉ kv.1.data)
    (hv1 : kv.2 ≠ "") (hv2 : '"' ∉ kv.2.data) :
    List.Chain' noQQPair (jsonEntryChars kv) := by
  have hekq : '"' ∉ jsonEscape kv.1.data := quote_not_mem_jsonEscape _ hk2
  have hevq : '"' ∉ jsonEscape kv.2.data := quote_not_mem_jsonEscape _ hv2
  have hekn : jsonEscape kv.1.data ≠ [] :=
    jsonEscape_ne_nil _ (string_ne_nil_data _ hk1)
  have hevn : jsonEscape kv.2.data ≠ [] :=
    jsonEscape_ne_nil _ (string_ne_nil_data _ hv1)
  have hshape : jsonEntryChars kv =
      (('"' :: jsonEscape kv.1.data) ++
        ('"' :: ':' :: ' ' :: '"' :: jsonEscape kv.2.data)) ++ ['"'] := by
    unfold jsonEntryChars
    simp [List.append_assoc]
  rw [hshape]
  apply List.Chain'.append
  · apply List.Chain'.append
    · rw [List.chain'_cons']
      refine ⟨?_, chain_of_quote_not_mem _ hekq⟩
      intro y hy
      exact noQQPair_of_right
        (fun he => hekq (he ▸ List.mem_of_mem_head? hy))
    · rw [List.chain'_cons']
      refine ⟨fun y hy => noQQPair_of_right ?_, ?_⟩
      · have : y = ':' := by have h2 := hy; simp at h2; exact h2.symm
        rw [this]
        decide
      rw [List.chain'_cons']
      refine ⟨fun y _ => noQQPair_of_left (by decide), ?_⟩
      rw [List.chain'_cons']
      refine ⟨fun y _ => noQQPair_of_left (by decide), ?_⟩
      rw [List.chain'_cons']
      refine ⟨?_, chain_of_quote_not_mem _ hevq⟩
      intro y hy
      exact noQQPair_of_right
        (fun he => hevq (he ▸ List.mem_of_mem_head? hy))
    · intro x hx y hy
      rw [getLast?_cons_of_ne_nil _ _ hekn] at hx
      exact noQQPair_of_left
        (fun he => hekq (he ▸ List.mem_of_mem_getLast? hx))
  · exact List.chain'_singleton _
  · intro x hx y _
    rw [List.getLast?_append] at hx
    rw [getLast?_cons_of_ne_nil _ _ (by simp)] at hx
    rw [getLast?_cons_of_ne_nil _ _ (by simp)] at hx
    rw [getLast?_cons_of_ne_nil _ _ (by simp)] at hx
    rw [getLast?_cons_of_ne_nil _ _ hevn] at hx
    cases hor : (jsonEscape kv.2.data).getLast? with
    | none =>
      rw [hor] at hx
      simp at hx
      exact noQQPair_of_left
        (fun he => hekq (he ▸ List.mem_of_mem_getLast? (by
          rw [getLast?_cons_of_ne_nil _ _ hekn] at hx
          exact hx)))
    | some z =>
      rw [hor] at hx
      simp at hx
      subst hx
      exact noQQPair_of_left
        (fun he => hevq (he ▸ List.mem_of_mem_getLast? (hor ▸ rfl)))

theorem chain_joinSepEntries :
    ∀ entries : List (List Char),
      (∀ e ∈ entries, List.Chain' noQQPair e) →
      List.Chain' noQQPair (joinSepChars [',', ' '] entries)
  | [], _ => List.chain'_nil
  | [e], h => h e (List.mem_singleton.mpr rfl)
  | e :: f :: rest, h => by
    show List.Chain' noQQPair
      (e ++ [',', ' '] ++ joinSepChars [',', ' '] (f :: rest))
    have hrec := chain_joinSepEntries (f :: rest)
      (fun e' he' => h e' (List.mem_cons_of_mem e he'))
    apply List.Chain'.append
    · apply List.Chain'.append
      · exact h e (List.mem_cons_self e (f :: rest))
      · exact chain_of_quote_not_mem _ (by decide)
      · intro x _ y hy
        have : y = ',' := by have h2 := hy; simp at h2; exact h2.symm
        exact noQQPair_of_right (by rw [this]; decide)
    · exact hrec
    · intro x hx y _
      have hlast : (e ++ [',', ' ']).getLast? = some ' ' := by
        rw [List.getLast?_append]
        rfl
      rw [hlast] at hx
      have : x = ' ' := by have h2 := hx; simp at h2; exact h2.symm
      exact noQQPair_of_left (by rw [this]; decide)

theorem chain_jsonDumpsDict (d : List (String × String))
    (hd : ∀ kv ∈ d, kv.1 ≠ "" ∧ '"' ∉ kv.1.data ∧
      kv.2 ≠ "" ∧ '"' ∉ kv.2.data) :
    List.Chain' noQQPair (jsonDumpsDict d).data := by
  show List.Chain' noQQPair
    ('\x7b' :: joinSepChars [',', ' '] (d.map jsonEntryChars) ++ ['\x7d'])
  apply List.Chain'.append
  · rw [List.chain'_cons']
    refine ⟨fun y _ => noQQPair_of_left (by decide), ?_⟩
    apply chain_joinSepEntries
    intro e he
    rw [List.mem_map] at he
    obtain ⟨kv, hkv, hee⟩ := he
    obtain ⟨a1, a2, a3, a4⟩ := hd kv hkv
    exact hee ▸ chain_jsonEntryChars kv a1 a2 a3 a4
  · exact List.chain'_singleton _
  · intro x _ y hy
    have : y = '\x7d' := by have h2 := hy; simp at h2; exact h2.symm
    exact noQQPair_of_right (by rw [this]; decide)

theorem mem_block_foldl_upd (b : List (String × String)) :
    ∀ (init : List (String × String)) (p : String × String),
      p ∈ b.foldl (fun a kv => pyDictSet a kv.1 kv.2) init →
      p ∈ init ∨ p ∈ b := by
  induction b with
  | nil => intro init p hp; exact Or.inl hp
  | cons kv rest ih =>
    intro init p hp
    have hp2 := ih (pyDictSet init kv.1 kv.2) p hp
    rcases hp2 with h | h
    · rcases mem_pyDictSet init kv.1 kv.2 p h with h2 | h2
      · exact Or.inl h2
      · right
        rw [h2]
        exact List.mem_cons_self kv rest
    · exact Or.inr (List.mem_cons_of_mem kv h)

theorem mem_mergeStats_aux (blocks : List (List (String × String))) :
    ∀ (init : List (String × String)) (p : String × String),
      p ∈ blocks.foldl
        (fun acc b => b.foldl (fun a kv => pyDictSet a kv.1 kv.2) acc) init →
      p ∈ init ∨ ∃ b ∈ blocks, p ∈ b := by
  induction blocks with
  | nil => intro init p hp; exact Or.inl hp
  | cons b rest ih =>
    intro init p hp
    rcases ih _ p hp with h | h
    · rcases mem_block_foldl_upd b init p h with h2 | h2
      · exact Or.inl h2
      · exact Or.inr ⟨b, List.mem_cons_self b rest, h2⟩
    · obtain ⟨b', hb', hpb'⟩ := h
      exact Or.inr ⟨b', List.mem_cons_of_mem b hb', hpb'⟩

theorem mem_mergeStats (blocks : List (List (String × String)))
    (p : String × String) (hp : p ∈ mergeStats blocks) :
    ∃ b ∈ blocks, p ∈ b := by
  rcases mem_mergeStats_aux blocks [] p hp with h | h
  · cases h
  · exact h

theorem pyDictGet_foldl_upd (l : List (String × String)) :
    ∀ (init : List (String × String)) (k : String),
      pyDictGet (l.foldl (fun a kv => pyDictSet a kv.1 kv.2) init) k =
        match l.reverse.find? (fun kv => kv.1 == k) with
        | some kv => some kv.2
        | none => pyDictGet init k := by
  induction l with
  | nil => intro init k; rfl
  | cons kv rest ih =>
    intro init k
    have hl : (kv :: rest).foldl (fun a kv => pyDictSet a kv.1 kv.2) init =
        rest.foldl (fun a kv => pyDictSet a kv.1 kv.2)
          (pyDictSet init kv.1 kv.2) := rfl
    rw [hl, ih]
    rw [List.reverse_cons, List.find?_append]
    cases hfr : rest.reverse.find? (fun kv => kv.1 == k) with
    | some kv' => rfl
    | none =>
      show pyDictGet (pyDictSet init kv.1 kv.2) k =
        (match List.find? (fun kv => kv.1 == k) [kv] with
          | some kv => some kv.2
          | none => pyDictGet init k)
      by_cases hk : (kv.1 == k) = true
      · have hke : kv.1 = k := by simpa using hk
        rw [show List.find? (fun kv => kv.1 == k) [kv] = some kv from by
          simp [List.find?, hk]]
        rw [← hke, pyDictGet_set_self]
      · have hke : k ≠ kv.1 := fun he => hk (by simp [he])
        rw [show List.find? (fun kv => kv.1 == k) [kv] = none from by
          simp [List.find?, hk]]
        rw [pyDictGet_set_ne _ _ _ _ hke]

theorem mergeStats_eq_flatten_foldl_aux (blocks : List (List (String × String))) :
    ∀ init : List (String × String),
      blocks.foldl
        (fun acc b => b.foldl (fun a kv => pyDictSet a kv.1 kv.2) acc) init =
      blocks.flatten.foldl (fun a kv => pyDictSet a kv.1 kv.2) init := by
  induction blocks with
  | nil => intro init; rfl
  | cons b rest ih =>
    intro init
    rw [List.flatten_cons, List.foldl_append]
    exact ih _

theorem mergeStats_eq_flatten_foldl (blocks : List (List (String × String))) :
    mergeStats blocks =
      blocks.flatten.foldl (fun a kv => pyDictSet a kv.1 kv.2) [] :=
  mergeStats_eq_flatten_foldl_aux blocks []

/-- Counterexample to C8 as stated: for a statistic block with an empty
value, `json.dumps` produces adjacent double quotes and the source's
`replace('""', '"')` mangles them, so the emitted value is not a JSON
encoding of the merged mapping. -/
theorem C8_counterexample :
    _get_sra_data_details_from_xml_sample [[("a", "")]] =
      "\x7b\"a\": \"\x7d" ∧
    jsonDumpsDict (mergeStats [[("a", "")]]) = "\x7b\"a\": \"\"\x7d" ∧
    _get_sra_data_details_from_xml_sample [[("a", "")]] ≠
      jsonDumpsDict (mergeStats [[("a", "")]]) := by
  exact ⟨by decide, by decide, by decide⟩

/-- C8 (amended: restricted to statistic blocks whose keys and values
are nonempty and free of the double-quote character, where the source's
`replace('""', '"')` is the identity): with `expand_sra_details` set,
`sra_data_details` is the JSON encoding of the single mapping obtained
by merging all statistic blocks' pairs in order, later blocks
overwriting earlier blocks' values on key conflict (each key's value is
its last occurrence across the blocks). -/
theorem C8_expanded_encoding (blocks : List (List (String × String)))
    (hgood : ∀ b ∈ blocks, ∀ kv ∈ b,
      kv.1 ≠ "" ∧ '"' ∉ kv.1.data ∧ kv.2 ≠ "" ∧ '"' ∉ kv.2.data) :
    _get_sra_data_details_from_xml_sample blocks =
      jsonDumpsDict (mergeStats blocks) ∧
    ∀ k, pyDictGet (mergeStats blocks) k = specMergedValue blocks k := by
  constructor
  · unfold _get_sra_data_details_from_xml_sample pyReplaceQQ
    have hpairs : ∀ kv ∈ mergeStats blocks, kv.1 ≠ "" ∧ '"' ∉ kv.1.data ∧
        kv.2 ≠ "" ∧ '"' ∉ kv.2.data := by
      intro kv hkv
      obtain ⟨b, hb, hkvb⟩ := mem_mergeStats blocks kv hkv
      exact hgood b hb kv hkvb
    rw [replaceQQ_of_chain _ (chain_jsonDumpsDict _ hpairs)]
  · intro k
    rw [mergeStats_eq_flatten_foldl, pyDictGet_foldl_upd]
    unfold specMergedValue
    cases hfind : blocks.flatten.reverse.find? (fun kv => kv.1 == k) with
    | some kv => rfl
    | none => rfl

/-- Witness for C8: two blocks with a key collision; the later value
wins and the emitted string is the JSON encoding of the merged dict. -/
theorem C8_expanded_encoding_witness :
    _get_sra_data_details_from_xml_sample [[("a", "x")], [("a", "y"), ("b", "2")]] =
      jsonDumpsDict [("a", "y"), ("b", "2")] ∧
    pyDictGet [("a", "y"), ("b", "2")] "a" =
      specMergedValue [[("a", "x")], [("a", "y"), ("b", "2")]] "a" := by
  have hm : mergeStats [[("a", "x")], [("a", "y"), ("b", "2")]] =
      [("a", "y"), ("b", "2")] := by decide
  have h := C8_expanded_encoding [[("a", "x")], [("a", "y"), ("b", "2")]]
    (by decide)
  constructor
  · have h1 := h.1
    rw [hm] at h1
    exact h1
  · have h2 := h.2 "a"
    rw [hm] at h2
    exact h2
